import Mathlib

/-!
Verification development for the "Who Lies Tonight" game server
(`src/backend/src/server.ts`).  The server's room state, command handlers
and phase state machine are embedded shallowly: JavaScript `Map`s become
association lists preserving insertion order, `setTimeout`/`clearTimeout`
become an explicit list of pending timers plus the stored handle, and each
socket handler becomes a pure function from a room (and the command's
payload) to the updated room together with the list of emitted events.

The pure game-logic module (`gameLogic.ts`) and the narrator lookup
(`narrator.ts`) are imported by `server.ts` but their sources are not part
of the repository snapshot; those functions are modelled from the spec and
are marked as such in their doc comments.
-/

-- ===========================================================================
-- Basic enumerations
-- ===========================================================================

/-- Player roles, from the data model (`role ∈ {mafia, doctor, detective, citizen}`). -/
inductive Role where
  | mafia | doctor | detective | citizen
deriving DecidableEq, Repr

/-- Room phases: `lobby → night → day → vote → … → ended`. -/
inductive Phase where
  | lobby | night | day | vote | ended
deriving DecidableEq, Repr

/-- Match winner, as passed to `endGame`. -/
inductive Winner where
  | mafia | town
deriving DecidableEq, Repr

/-- Night-resolution outcome classification. -/
inductive Outcome where
  | no_action | killed | saved
deriving DecidableEq, Repr

/-- Elimination causes appearing in `player_eliminated` events.  The spec's
event vocabulary also lists `forced_disconnect`, so it is included here. -/
inductive Cause where
  | night_kill | lynch | forced_disconnect
deriving DecidableEq, Repr

/-- Chat channels. -/
inductive Channel where
  | global | mafia
deriving DecidableEq, Repr

/-- The three night actions. -/
inductive NAction where
  | kill | save | investigate
deriving DecidableEq, Repr

-- ===========================================================================
-- Players and rooms
-- ===========================================================================

/-- One participant, mirroring the player objects stored in `room.players`.
The avatar reference is kept as an opaque string. -/
structure Player where
  id : String
  sessionId : String
  name : String
  avatar : String
  role : Option Role
  alive : Bool
  connected : Bool
  disconnectedAt : Option Nat
  chatCount : Nat
  chatWindowStart : Nat
deriving DecidableEq, Repr

/-- Modelled from the spec: `createPlayer` lives in `gameLogic.ts`, which is
not in the snapshot.  Per the data model a fresh player has no role yet, is
alive and connected, and has a null disconnect timestamp.  The randomly
generated session id is passed in as an oracle argument. -/
def createPlayer (id name avatar sessionId : String) : Player :=
  { id := id, sessionId := sessionId, name := name, avatar := avatar
    role := none, alive := true, connected := true, disconnectedAt := none
    chatCount := 0, chatWindowStart := 0 }

/-- What a pending `setTimeout` callback will do when it fires. -/
inductive TimerKind where
  | resolveNight | startDay | startVote | resolveVote | startNight
deriving DecidableEq, Repr

/-- A live (armed, not yet fired or cancelled) timer for a room. -/
structure PendingTimer where
  id : Nat
  kind : TimerKind
  delay : Nat
deriving DecidableEq, Repr

/-- One mafia kill vote, `{voterId, targetId}`. -/
structure MafiaVote where
  voterId : String
  targetId : String
deriving DecidableEq, Repr

/-- One active room.  `players` and `votes` model JavaScript `Map`s as
association lists in insertion order; `nightActionsSubmitted` models the
`Set` as a list.  `pending` is the list of live phase timers and
`timerHandle` is the handle stored in `room.timer` (a cancelled handle may
remain stored, exactly as in the source).  Per-player disconnect grace
timers are not phase timers and are modelled as externally invoked
callbacks instead. -/
structure Room where
  code : String
  phase : Phase
  round : Nat
  players : List (String × Player)
  hostId : String
  started : Bool
  mafiaVotes : List MafiaVote
  doctorSave : Option String
  detectiveTarget : Option String
  nightActionsSubmitted : List String
  votes : List (String × String)
  pending : List PendingTimer
  timerHandle : Option Nat
  nextTimerId : Nat
deriving DecidableEq, Repr

-- ===========================================================================
-- Association-list map operations (JavaScript `Map` semantics)
-- ===========================================================================

/-- `Map.get`: first binding of the key, if any. -/
def mapGet (k : String) (m : List (String × Player)) : Option Player :=
  (m.find? (fun kv => kv.1 == k)).map (fun kv => kv.2)

/-- `Map.set`: update in place when the key exists, append otherwise. -/
def mapSet (k : String) (v : Player) : List (String × Player) → List (String × Player)
  | [] => [(k, v)]
  | kv :: rest => if kv.1 == k then (k, v) :: rest else kv :: mapSet k v rest

/-- `Map.delete`. -/
def mapDelete (k : String) (m : List (String × Player)) : List (String × Player) :=
  m.filter (fun kv => kv.1 != k)

/-- `Map.get` for the string-valued vote map. -/
def smapGet (k : String) (m : List (String × String)) : Option String :=
  (m.find? (fun kv => kv.1 == k)).map (fun kv => kv.2)

/-- `Map.set` for the string-valued vote map. -/
def smapSet (k v : String) : List (String × String) → List (String × String)
  | [] => [(k, v)]
  | kv :: rest => if kv.1 == k then (k, v) :: rest else kv :: smapSet k v rest

-- ===========================================================================
-- Pure game logic (gameLogic.ts is absent from the snapshot)
-- ===========================================================================

/-- Modelled from the spec: configured minimum players (the game is for
4–12 players, and `start_game` errors below the minimum). -/
def MIN_PLAYERS : Nat := 4

/-- Maximum players per room ("Room is full (max 12 players)."). -/
def MAX_PLAYERS : Nat := 12

/-- Modelled from the spec: nominal night duration (tunable constant in
`gameLogic.ts`; the exact value is not in the snapshot and no claim
depends on it). -/
def NIGHT_DURATION_MS : Nat := 30000

/-- Modelled from the spec: nominal day-discussion duration. -/
def DAY_DISCUSS_MS : Nat := 60000

/-- Modelled from the spec: nominal voting duration. -/
def VOTE_DURATION_MS : Nat := 30000

/-- `getAlivePlayers`: players with `alive = true`. -/
def getAlivePlayers (r : Room) : List Player :=
  (r.players.map (fun kv => kv.2)).filter (fun p => p.alive)

/-- `getAliveMafia`: alive players whose role is mafia. -/
def getAliveMafia (r : Room) : List Player :=
  (getAlivePlayers r).filter (fun p => p.role == some Role.mafia)

/-- Alive players whose role is not mafia. -/
def getAliveNonMafia (r : Room) : List Player :=
  (getAlivePlayers r).filter (fun p => p.role != some Role.mafia)

/-- Modelled from the spec: `checkWinCondition` (in the absent
`gameLogic.ts`).  "Town wins when zero mafia remain alive.  Mafia wins
when alive mafia count is greater than or equal to alive non-mafia count."
Otherwise no winner yet. -/
def checkWinCondition (r : Room) : Option Winner :=
  let m := (getAliveMafia r).length
  if m = 0 then some Winner.town
  else if (getAliveNonMafia r).length ≤ m then some Winner.mafia
  else none

/-- Result value of night resolution. -/
structure NightResult where
  outcome : Outcome
  killedPlayerId : Option String
  saved : Bool
  cutsceneVariant : Option Nat
deriving DecidableEq, Repr

/-- Vote count received by `t` among the mafia votes. -/
def mafiaVoteCount (votes : List MafiaVote) (t : String) : Nat :=
  (votes.filter (fun v => v.targetId == t)).length

/-- The largest vote count any target received. -/
def maxMafiaVoteCount (votes : List MafiaVote) : Nat :=
  (votes.map (fun v => mafiaVoteCount votes v.targetId)).foldr Nat.max 0

/-- Modelled from the spec: the chosen mafia kill target — "the mafia
target with the strictly highest vote count; ties are resolved by
first-cast vote among the tied targets (stable on submission order); no
mafia votes ⇒ no kill attempt". -/
def chooseKillTarget (votes : List MafiaVote) : Option String :=
  (votes.find? (fun v =>
    mafiaVoteCount votes v.targetId == maxMafiaVoteCount votes)).map
      (fun v => v.targetId)

/-- Modelled from the spec: `resolveNight` (in the absent `gameLogic.ts`).
Saved is true iff the chosen kill target equals `doctorSave`; outcome is
`no_action` / `killed` / `saved`; a cutscene variant is selected only when
a kill was attempted (the random variant choice is modelled as variant 0,
since only its presence is observable to the orchestrator's control flow). -/
def resolveNight (r : Room) : NightResult :=
  match chooseKillTarget r.mafiaVotes with
  | none =>
      { outcome := Outcome.no_action, killedPlayerId := none
        saved := false, cutsceneVariant := none }
  | some t =>
      let sv := r.doctorSave == some t
      { outcome := if sv then Outcome.saved else Outcome.killed
        killedPlayerId := some t
        saved := sv
        cutsceneVariant := some 0 }

/-- Vote count received by `t` among the (alive-voter) day votes. -/
def dayVoteCount (votes : List (String × String)) (t : String) : Nat :=
  (votes.filter (fun kv => kv.2 == t)).length

/-- Modelled from the spec: `resolveDayVote` (in the absent
`gameLogic.ts`).  Majority rule restricted to votes cast by currently
alive players; elimination only when one target holds a strict plurality;
ties between top targets or zero votes resolve to no elimination. -/
def resolveDayVote (r : Room) : Option String :=
  let live := r.votes.filter (fun kv =>
    match mapGet kv.1 r.players with
    | some p => p.alive
    | none => false)
  let tops := live.filter (fun kv =>
    live.all (fun kv2 => dayVoteCount live kv2.2 ≤ dayVoteCount live kv.2))
  match tops with
  | [] => none
  | kv :: _ =>
      if tops.all (fun kv2 => kv2.2 == kv.2) then some kv.2 else none

/-- Modelled from the spec: `sanitizeUsername` (in the absent
`gameLogic.ts`) — display names are valid at 3–16 characters after
sanitization. -/
def sanitizeUsername (s : String) : Option String :=
  let t := s.trim
  if 3 ≤ t.length ∧ t.length ≤ 16 then some t else none

/-- Modelled from the spec: `assignRoles` (in the absent `gameLogic.ts`).
The uniform random shuffle is passed in as an oracle (`shuffled`), which
is then sliced into role buckets: mafia count `max 1 (n / 4)`, then one
doctor and one detective when `n ≥ 5`, citizens fill the rest. -/
def assignRoles (shuffled : List String) : List (String × Role) :=
  let n := shuffled.length
  let mafiaCount := Nat.max 1 (n / 4)
  let specials := decide (5 ≤ n)
  (shuffled.enum.map (fun p =>
    (p.2,
      if p.1 < mafiaCount then Role.mafia
      else if specials && p.1 == mafiaCount then Role.doctor
      else if specials && p.1 == mafiaCount + 1 then Role.detective
      else Role.citizen)))

/-- Modelled from the spec: `getNarratorText` (in the absent
`narrator.ts`) — a pure lookup from outcome to display string. -/
def getNarratorText (o : Outcome) (victimName : Option String) : String :=
  match o with
  | Outcome.no_action => "The night passes quietly."
  | Outcome.killed => (victimName.getD "Someone") ++ " was killed in the night."
  | Outcome.saved => "The doctor saved a life tonight."

-- ===========================================================================
-- Outbound events
-- ===========================================================================

/-- Public view of a player, role hidden (`toPublicPlayers`). -/
structure PublicPlayer where
  id : String
  name : String
  avatar : String
  alive : Bool
  connected : Bool
  isHost : Bool
deriving DecidableEq, Repr

/-- Payload of a `room_updated` broadcast. -/
structure RoomSnapshot where
  code : String
  phase : Phase
  round : Nat
  players : List PublicPlayer
  started : Bool
deriving DecidableEq, Repr

/-- Events emitted by the server.  Message timestamps are omitted from the
chat payload (they are wall-clock noise irrelevant to every claim). -/
inductive Event where
  | roomUpdated (snap : RoomSnapshot)
  | voteUpdated (votes : List (String × String)) (tally : List (String × Nat))
  | chat (senderId senderName text : String) (channel : Channel)
  | phaseChanged (phase : Phase) (round : Nat) (timer : Nat)
  | playerEliminated (playerId playerName : String) (cause : Cause)
  | cutscene (variant : Nat) (victimId victimName victimAvatar : Option String)
      (saved : Bool)
  | narrate (text : String) (outcome : Outcome)
  | gameEnded (winner : Winner) (roles : List (String × String × Option Role))
  | errorMsg (message : String)
  | roomJoined (code playerId sessionId : String)
  | gameStarted (role : Option Role) (mafiaTeam : List (String × String × String))
      (players : List PublicPlayer) (phase : Phase)
  | detectiveResult (targetId targetName : String) (isMafia : Bool)
  | reconnected (code playerId : String) (role : Option Role) (phase : Phase)
      (players : List PublicPlayer)
deriving DecidableEq, Repr

/-- Delivery scope of an emitted event: `io.to(code).emit` versus
`socket.emit` / `io.sockets.sockets.get(id).emit`. -/
inductive Scope where
  | toRoom
  | toSocket (sid : String)
deriving DecidableEq, Repr

/-- An emitted event together with its delivery scope. -/
abbrev Emit := Scope × Event

/-- `toPublicPlayers(room, hostId)` — converts the players map to the
public array with roles hidden. -/
def toPublicPlayers (r : Room) : List PublicPlayer :=
  r.players.map (fun kv =>
    { id := kv.2.id, name := kv.2.name, avatar := kv.2.avatar
      alive := kv.2.alive, connected := kv.2.connected
      isHost := kv.2.id == r.hostId })

/-- `broadcastRoomUpdate`. -/
def roomUpdatedEmit (r : Room) : Emit :=
  (Scope.toRoom, Event.roomUpdated
    { code := r.code, phase := r.phase, round := r.round
      players := toPublicPlayers r, started := r.started })

/-- The per-target tally built by `broadcastVoteTally`. -/
def voteTally (votes : List (String × String)) : List (String × Nat) :=
  votes.foldl (fun acc kv =>
    if acc.any (fun e => e.1 == kv.2) then
      acc.map (fun e => if e.1 == kv.2 then (e.1, e.2 + 1) else e)
    else acc ++ [(kv.2, 1)]) []

/-- `broadcastVoteTally`. -/
def voteUpdatedEmit (r : Room) : Emit :=
  (Scope.toRoom, Event.voteUpdated r.votes (voteTally r.votes))

/-- `systemMessage`: a chat broadcast from the pseudo-sender `system`. -/
def systemMsg (text : String) : Emit :=
  (Scope.toRoom, Event.chat "system" "System" text Channel.global)

-- ===========================================================================
-- Timer bookkeeping
-- ===========================================================================

/-- `if (room.timer) clearTimeout(room.timer)` — cancels the timer named by
the stored handle (the stale handle value itself remains stored, as in the
source). -/
def clearRoomTimer (r : Room) : Room :=
  match r.timerHandle with
  | some h => { r with pending := r.pending.filter (fun t => t.id != h) }
  | none => r

/-- `room.timer = setTimeout(cb, delay)` — arms a fresh timer and stores
its handle. -/
def armTimer (k : TimerKind) (d : Nat) (r : Room) : Room :=
  { r with pending := r.pending ++ [⟨r.nextTimerId, k, d⟩]
           timerHandle := some r.nextTimerId
           nextTimerId := r.nextTimerId + 1 }

/-- The `setTimeout(() => startNightPhase(code), 3000)` in the
`start_game` handler: armed without clearing and without storing the
handle in `room.timer`. -/
def armUntrackedTimer (k : TimerKind) (d : Nat) (r : Room) : Room :=
  { r with pending := r.pending ++ [⟨r.nextTimerId, k, d⟩]
           nextTimerId := r.nextTimerId + 1 }

-- ===========================================================================
-- Phase state machine
-- ===========================================================================

/-- `startNightPhase`: resets the night accumulators, bumps the round,
announces the phase, and re-arms the phase timer. -/
def startNightPhase (r : Room) : Room × List Emit :=
  let r1 : Room :=
    { r with phase := Phase.night, round := r.round + 1, mafiaVotes := []
             doctorSave := none, detectiveTarget := none
             nightActionsSubmitted := [] }
  let evs : List Emit :=
    [(Scope.toRoom, Event.phaseChanged Phase.night r1.round NIGHT_DURATION_MS),
     systemMsg ("Night " ++ toString r1.round ++ " begins. The city goes dark...")]
  (armTimer TimerKind.resolveNight NIGHT_DURATION_MS (clearRoomTimer r1), evs)

/-- `endGame`: sets the terminal phase, cancels the pending timer, and
reveals every role. -/
def endGame (w : Winner) (r : Room) : Room × List Emit :=
  let r1 := clearRoomTimer { r with phase := Phase.ended }
  let evs : List Emit :=
    [(Scope.toRoom, Event.gameEnded w
        (r.players.map (fun kv => (kv.2.id, kv.2.name, kv.2.role)))),
     systemMsg (match w with
       | Winner.mafia => "The syndicate wins! The city falls to the mob."
       | Winner.town => "The townspeople win! Justice prevails... for now.")]
  (r1, evs)

/-- The kill-application block of `resolveNightPhase`: marks the chosen
victim dead (when a kill target exists, the doctor did not save them, and
they are still in the players map) and emits the elimination event.
Returns the updated room, the events, and the marked victim (the
`killedPlayer` local of the source). -/
def nightKillApplied (r : Room) (res : NightResult) :
    Room × List Emit × Option Player :=
  match res.killedPlayerId with
  | none => (r, [], none)
  | some t =>
      if res.saved then (r, [], none)
      else
        match mapGet t r.players with
        | none => (r, [], none)
        | some p =>
            let dead := { p with alive := false }
            ({ r with players := mapSet t dead r.players },
             [(Scope.toRoom, Event.playerEliminated p.id p.name Cause.night_kill)],
             some dead)

/-- `resolveNightPhase`: guard on the phase, apply the kill, emit
cutscene and narration, check the win condition (ending the match if
decided), else arm the pre-day delay (12 s with a cutscene, 2 s without). -/
def resolveNightPhase (r : Room) : Room × List Emit :=
  if r.phase ≠ Phase.night then (r, [])
  else
    let res := resolveNight r
    let ap := nightKillApplied r res
    let r1 := ap.1
    let killEvs := ap.2.1
    let killedPlayer := ap.2.2
    let cutEvs : List Emit :=
      match res.cutsceneVariant with
      | some v =>
          let victim := res.killedPlayerId.bind (fun t => mapGet t r1.players)
          [(Scope.toRoom, Event.cutscene v (victim.map (fun p => p.id))
              (victim.map (fun p => p.name)) (victim.map (fun p => p.avatar))
              res.saved)]
      | none => []
    let narrName : Option String :=
      match killedPlayer with
      | some p => some p.name
      | none => res.killedPlayerId.bind (fun t => (mapGet t r1.players).map (fun p => p.name))
    let narrEv : Emit :=
      (Scope.toRoom, Event.narrate (getNarratorText res.outcome narrName) res.outcome)
    let evs := killEvs ++ cutEvs ++ [narrEv]
    match checkWinCondition r1 with
    | some w =>
        let e := endGame w r1
        (e.1, evs ++ e.2)
    | none =>
        let cutsceneDelay := if res.cutsceneVariant.isSome then 12000 else 2000
        (armTimer TimerKind.startDay cutsceneDelay (clearRoomTimer r1), evs)

/-- `startDayPhase`: enters `day`, clears the vote accumulator, arms the
discussion timer. -/
def startDayPhase (r : Room) : Room × List Emit :=
  let r1 : Room := { r with phase := Phase.day, votes := [] }
  let evs : List Emit :=
    [(Scope.toRoom, Event.phaseChanged Phase.day r1.round DAY_DISCUSS_MS),
     systemMsg "Dawn breaks. Discuss and find the traitors among you."]
  (armTimer TimerKind.startVote DAY_DISCUSS_MS (clearRoomTimer r1), evs)

/-- `startVotePhase`: enters `vote` and arms the voting timer. -/
def startVotePhase (r : Room) : Room × List Emit :=
  let r1 : Room := { r with phase := Phase.vote }
  let evs : List Emit :=
    [(Scope.toRoom, Event.phaseChanged Phase.vote r1.round VOTE_DURATION_MS),
     systemMsg "Vote now! The player with the most votes will be eliminated.",
     voteUpdatedEmit r1]
  (armTimer TimerKind.resolveVote VOTE_DURATION_MS (clearRoomTimer r1), evs)

/-- The lynch-application block of `resolveVotePhase`. -/
def lynchApplied (r : Room) (lynchedId : Option String) : Room × List Emit :=
  match lynchedId with
  | some t =>
      (match mapGet t r.players with
       | some p =>
           ({ r with players := mapSet t { p with alive := false } r.players },
            [(Scope.toRoom, Event.playerEliminated p.id p.name Cause.lynch),
             systemMsg (p.name ++ " has been eliminated by vote.")])
       | none => (r, []))
  | none => (r, [systemMsg "No majority reached. No one is eliminated today."])

/-- `resolveVotePhase`: guard on the phase, apply the lynch, broadcast the
roster, check the win condition (ending the match if decided), else arm
the 3 s delay before the next night. -/
def resolveVotePhase (r : Room) : Room × List Emit :=
  if r.phase ≠ Phase.vote then (r, [])
  else
    let ap := lynchApplied r (resolveDayVote r)
    let r1 := ap.1
    let evs := ap.2 ++ [roomUpdatedEmit r1]
    match checkWinCondition r1 with
    | some w =>
        let e := endGame w r1
        (e.1, evs ++ e.2)
    | none =>
        (armTimer TimerKind.startNight 3000 (clearRoomTimer r1), evs)

-- ===========================================================================
-- Night-action completeness check (early advance)
-- ===========================================================================

/-- The completeness condition computed by `checkNightActionsComplete`:
at least one alive mafia member exists and every one of them has cast a
kill vote, the doctor (if one is alive) has submitted a save, and the
detective (if one is alive) has submitted an investigation. -/
def nightActionsComplete (r : Room) : Bool :=
  let alivePs := getAlivePlayers r
  let aliveMafia := alivePs.filter (fun p => p.role == some Role.mafia)
  let mafiaVoters := r.mafiaVotes.map (fun v => v.voterId)
  let allMafiaVoted :=
    decide (aliveMafia.length > 0) &&
      aliveMafia.all (fun p => mafiaVoters.contains p.id)
  let hasDoctor := alivePs.any (fun p => p.role == some Role.doctor)
  let doctorActed := if hasDoctor then r.doctorSave.isSome else true
  let hasDetective := alivePs.any (fun p => p.role == some Role.detective)
  let detectiveActed := if hasDetective then r.detectiveTarget.isSome else true
  allMafiaVoted && doctorActed && detectiveActed

/-- `checkNightActionsComplete`: when the completeness condition holds
during the night phase, cancel the pending timer and resolve the night
immediately. -/
def checkNightActionsComplete (r : Room) : Room × List Emit :=
  if r.phase ≠ Phase.night then (r, [])
  else if nightActionsComplete r then
    resolveNightPhase (clearRoomTimer r)
  else (r, [])

-- ===========================================================================
-- Socket command handlers
-- ===========================================================================

/-- Shorthand for the rejection pattern `socket.emit('error', {message})`:
the room is returned untouched and a single error event goes back to the
issuing connection only. -/
def rejectWith (r : Room) (sender msg : String) : Room × List Emit :=
  (r, [(Scope.toSocket sender, Event.errorMsg msg)])

/-- The code shared by the three accepting switch cases of `night_action`:
record the submission (`nightActionsSubmitted.add`) and run the
early-advance check. -/
def finishNightAction (sender : String) (r1 : Room) (evs : List Emit) :
    Room × List Emit :=
  let r2 : Room := { r1 with nightActionsSubmitted :=
      r1.nightActionsSubmitted ++ [sender] }
  let adv := checkNightActionsComplete r2
  (adv.1, evs ++ adv.2)

/-- The `night_action` handler (room already looked up). -/
def nightAction (sender : String) (act : NAction) (targetId : String)
    (r : Room) : Room × List Emit :=
  if r.phase ≠ Phase.night then rejectWith r sender "Not night phase."
  else
    match mapGet sender r.players with
    | none => rejectWith r sender "You are not alive."
    | some player =>
      if ¬player.alive then rejectWith r sender "You are not alive."
      else if r.nightActionsSubmitted.contains sender then
        rejectWith r sender "You already submitted a night action."
      else
        match mapGet targetId r.players with
        | none => rejectWith r sender "Invalid target."
        | some target =>
          if ¬target.alive then rejectWith r sender "Invalid target."
          else
            match act with
            | NAction.kill =>
                if player.role ≠ some Role.mafia then
                  rejectWith r sender "Only mafia can kill."
                else if targetId = sender then
                  rejectWith r sender "Cannot target yourself."
                else
                  finishNightAction sender
                    { r with mafiaVotes := r.mafiaVotes ++ [⟨sender, targetId⟩] } []
            | NAction.save =>
                if player.role ≠ some Role.doctor then
                  rejectWith r sender "Only doctor can save."
                else
                  finishNightAction sender
                    { r with doctorSave := some targetId } []
            | NAction.investigate =>
                if player.role ≠ some Role.detective then
                  rejectWith r sender "Only detective can investigate."
                else
                  finishNightAction sender
                    { r with detectiveTarget := some targetId }
                    [(Scope.toSocket sender, Event.detectiveResult targetId
                        target.name (target.role == some Role.mafia))]

/-- The tail of the `day_vote` handler once all validation has passed:
record (or overwrite) the vote, broadcast the tally, and resolve early
when every alive player has voted. -/
def dayVoteAccept (sender targetId : String) (r : Room) : Room × List Emit :=
  let r1 : Room := { r with votes := smapSet sender targetId r.votes }
  let evs := [voteUpdatedEmit r1]
  if (getAlivePlayers r1).length ≤ r1.votes.length then
    let res := resolveVotePhase (clearRoomTimer r1)
    (res.1, evs ++ res.2)
  else (r1, evs)

/-- The `day_vote` handler (room already looked up). -/
def dayVote (sender targetId : String) (r : Room) : Room × List Emit :=
  if r.phase ≠ Phase.vote then rejectWith r sender "Not voting phase."
  else
    match mapGet sender r.players with
    | none => rejectWith r sender "You cannot vote."
    | some voter =>
      if ¬voter.alive then rejectWith r sender "You cannot vote."
      else
        match mapGet targetId r.players with
        | none => rejectWith r sender "Invalid vote target."
        | some target =>
          if ¬target.alive then rejectWith r sender "Invalid vote target."
          else if targetId = sender then
            rejectWith r sender "Cannot vote for yourself."
          else dayVoteAccept sender targetId r

/-- The tail of the `chat_message` handler after the rate-limit counter
has been bumped on the sender (`p2` is the updated player, `r1` the room
holding it): enforce the limit, sanitize, and deliver to the channel. -/
def chatDeliver (sender text : String) (channel : Channel) (p2 : Player)
    (r1 : Room) : Room × List Emit :=
  if p2.chatCount > 10 then
    rejectWith r1 sender "Slow down! (rate limit)"
  else
    let txt := (((text.replace "<" "").replace ">" "").trim.take 300)
    if txt = "" then (r1, [])
    else
      let msg := Event.chat sender p2.name txt channel
      if channel = Channel.mafia then
        (r1, (r1.players.filter (fun kv => kv.2.role == some Role.mafia)).map
          (fun kv => (Scope.toSocket kv.2.id, msg)))
      else (r1, [(Scope.toRoom, msg)])

/-- The `chat_message` handler (room already looked up).  Sanitization of
the text (angle-bracket stripping, trimming, 300-character cap) is kept. -/
def chatMessage (sender text : String) (channel : Channel) (now : Nat)
    (r : Room) : Room × List Emit :=
  match mapGet sender r.players with
  | none => (r, [])
  | some player =>
    if ¬player.alive ∧ channel = Channel.global then
      rejectWith r sender "Spectators cannot send messages."
    else if channel = Channel.mafia ∧ player.role ≠ some Role.mafia then
      rejectWith r sender "Only mafia can use mafia chat."
    else if channel = Channel.mafia ∧ (getAliveMafia r).length ≤ 1 then
      rejectWith r sender "Mafia chat disabled (only 1 mafia left)."
    else
      let p1 :=
        if now - player.chatWindowStart > 5000 then
          { player with chatCount := 0, chatWindowStart := now }
        else player
      let p2 := { p1 with chatCount := p1.chatCount + 1 }
      chatDeliver sender text channel p2
        { r with players := mapSet sender p2 r.players }

/-- The `reconnect_player` handler (room already looked up).  `newId` is
the reconnecting socket's id and `now` the arrival time. -/
def reconnectPlayer (newId sessionId : String) (now : Nat) (r : Room) :
    Room × List Emit :=
  match r.players.find? (fun kv => kv.2.sessionId == sessionId) with
  | none => rejectWith r newId "Session not found."
  | some kv =>
    let p := kv.2
    match p.disconnectedAt with
    | some t =>
        if now - t > 30000 then
          rejectWith r newId "Reconnect window expired."
        else reconnectTransfer newId sessionId r p
    | none => reconnectTransfer newId sessionId r p
where
  /-- The accept path: transfer the player record to the new socket id,
  restore the connected flag, clear the disconnect timestamp, re-promote
  the host, and answer with the private `reconnected` payload. -/
  reconnectTransfer (newId _sessionId : String) (r : Room) (p : Player) :
      Room × List Emit :=
    let oldId := p.id
    let p1 := { p with id := newId, connected := true, disconnectedAt := none }
    let players1 := mapSet newId p1 (mapDelete oldId r.players)
    let host1 := if r.hostId = oldId then newId else r.hostId
    let r1 : Room := { r with players := players1, hostId := host1 }
    (r1,
     [(Scope.toSocket newId, Event.reconnected r1.code newId p1.role r1.phase
        (toPublicPlayers r1)),
      roomUpdatedEmit r1])

/-- The `start_game` handler (room already looked up).  The uniform random
shuffle used by role assignment is an oracle argument. -/
def startGame (sender : String) (shuffled : List String) (r : Room) :
    Room × List Emit :=
  if r.hostId ≠ sender then rejectWith r sender "Only the host can start."
  else if r.started then rejectWith r sender "Game already started."
  else if r.players.length < MIN_PLAYERS then
    rejectWith r sender ("Need at least " ++ toString MIN_PLAYERS ++
      " players to start.")
  else
    let roleMap := assignRoles shuffled
    let players1 := r.players.map (fun kv =>
      match (roleMap.find? (fun ir => ir.1 == kv.1)).map (fun ir => ir.2) with
      | some role => (kv.1, { kv.2 with role := some role })
      | none => kv)
    let r1 : Room := { r with started := true, players := players1 }
    let mafiaTeam := (players1.filter (fun kv => kv.2.role == some Role.mafia)).map
      (fun kv => (kv.2.id, kv.2.name, kv.2.avatar))
    let evs : List Emit := players1.map (fun kv =>
      (Scope.toSocket kv.2.id, Event.gameStarted kv.2.role
        (if kv.2.role == some Role.mafia then mafiaTeam else [])
        (toPublicPlayers r1) Phase.night))
    (armUntrackedTimer TimerKind.startNight 3000 r1, evs)

/-- The `join_room` handler (room already looked up; the fresh session id
is an oracle argument). -/
def joinRoom (sender name avatar sessionId : String) (r : Room) :
    Room × List Emit :=
  if r.started then rejectWith r sender "Game already in progress."
  else if MAX_PLAYERS ≤ r.players.length then
    rejectWith r sender "Room is full (max 12 players)."
  else
    match sanitizeUsername name with
    | none => rejectWith r sender "Invalid username (3–16 chars)."
    | some clean =>
      if r.players.any (fun kv => kv.2.name.toLower == clean.toLower) then
        rejectWith r sender "Username already taken in this room."
      else
        let player := createPlayer sender clean avatar sessionId
        let r1 : Room := { r with players := mapSet sender player r.players }
        (r1,
         [(Scope.toSocket sender, Event.roomJoined r1.code sender sessionId),
          roomUpdatedEmit r1,
          systemMsg (clean ++ " joined the room.")])

/-- The removal block shared (verbatim in the source) by the permanent
branch of `handleDisconnect` and the lobby branch of the grace-window
expiry callback: delete the player, reassign the host to the first
remaining map key if the leaver was host, delete the room when it empties
(`none`), otherwise announce the departure (`departText` differs between
the two call sites). -/
def removePlayerBlock (sender : String) (player : Player) (departText : String)
    (r : Room) : Option Room × List Emit :=
  let players1 := mapDelete sender r.players
  let hostStep : String × List Emit :=
    if r.hostId = sender ∧ players1 ≠ [] then
      let h := ((players1.head?).map (fun kv => kv.1)).getD r.hostId
      (h, [systemMsg (((mapGet h players1).map (fun p => p.name)).getD "" ++
        " is now the host.")])
    else (r.hostId, [])
  if players1.isEmpty then (none, hostStep.2)
  else
    let r1 : Room := { r with players := players1, hostId := hostStep.1 }
    (some r1, hostStep.2 ++
      [systemMsg (player.name ++ departText), roomUpdatedEmit r1])

/-- The permanent branch of `handleDisconnect` (explicit `leave_room`):
remove the player at once, reassign the host, delete the room when it
empties (`none`), otherwise announce the departure. -/
def handleLeave (sender : String) (r : Room) : Option Room × List Emit :=
  match mapGet sender r.players with
  | none => (some r, [])
  | some player => removePlayerBlock sender player " left the room." r

/-- The non-permanent branch of `handleDisconnect` (transport drop): mark
the player disconnected, stamp the time, and announce it outside the
lobby.  The grace timer armed here is modelled as the externally invoked
`graceExpire` callback. -/
def handleDrop (sender : String) (now : Nat) (r : Room) : Room × List Emit :=
  match mapGet sender r.players with
  | none => (r, [])
  | some player =>
    let p1 := { player with connected := false, disconnectedAt := some now }
    let r1 : Room := { r with players := mapSet sender p1 r.players }
    if r1.phase ≠ Phase.lobby then
      (r1, [systemMsg (p1.name ++ " disconnected. " ++
              toString ((if r.phase = Phase.lobby then 15000 else 30000) / 1000) ++
              "s to reconnect..."),
            roomUpdatedEmit r1])
    else (r1, [])

/-- The mid-match branch of the grace-window expiry callback: mark the
player permanently dead, announce it, and re-check the win condition
(ending the match if it is now decided). -/
def forceEliminate (sender : String) (player : Player) (r : Room) :
    Option Room × List Emit :=
  let p1 := { player with alive := false }
  let r1 : Room := { r with players := mapSet sender p1 r.players }
  let evs : List Emit :=
    [systemMsg (p1.name ++ " failed to reconnect."), roomUpdatedEmit r1]
  match checkWinCondition r1 with
  | some w =>
      let e := endGame w r1
      (some e.1, evs ++ e.2)
  | none => (some r1, evs)

/-- The grace-window expiry callback armed by `handleDisconnect`: if the
player is still present and still disconnected, remove them in the lobby
(with the voluntary-leave consequences) or mark them permanently dead
mid-match (`forceEliminate`) and re-check the win condition. -/
def graceExpire (sender : String) (r : Room) : Option Room × List Emit :=
  match mapGet sender r.players with
  | none => (some r, [])
  | some player =>
    if player.connected then (some r, [])
    else if r.phase = Phase.lobby then
      removePlayerBlock sender player " left the lobby." r
    else forceEliminate sender player r

-- ===========================================================================
-- The command dispatcher and timer firing
-- ===========================================================================

/-- Inbound commands that address an existing room (`create_room` only
creates a fresh room and never touches an existing one, so it is outside
the single-room scope of this model). -/
inductive Cmd where
  | join (sender name avatar sessionId : String)
  | start (sender : String) (shuffled : List String)
  | night (sender : String) (act : NAction) (target : String)
  | vote (sender target : String)
  | chat (sender text : String) (channel : Channel) (now : Nat)
  | reconnect (sender sessionId : String) (now : Nat)
  | leave (sender : String)
  | drop (sender : String) (now : Nat)
deriving DecidableEq, Repr

/-- One synchronous server step on a room: dispatch the command to its
handler.  `none` means the room was deleted. -/
def serverStep (c : Cmd) (r : Room) : Option Room × List Emit :=
  match c with
  | Cmd.join sender name avatar sessionId =>
      let res := joinRoom sender name avatar sessionId r
      (some res.1, res.2)
  | Cmd.start sender shuffled =>
      let res := startGame sender shuffled r
      (some res.1, res.2)
  | Cmd.night sender act target =>
      let res := nightAction sender act target r
      (some res.1, res.2)
  | Cmd.vote sender target =>
      let res := dayVote sender target r
      (some res.1, res.2)
  | Cmd.chat sender text channel now =>
      let res := chatMessage sender text channel now r
      (some res.1, res.2)
  | Cmd.reconnect sender sessionId now =>
      let res := reconnectPlayer sender sessionId now r
      (some res.1, res.2)
  | Cmd.leave sender => handleLeave sender r
  | Cmd.drop sender now =>
      let res := handleDrop sender now r
      (some res.1, res.2)

/-- Run a timer callback. -/
def runTimerKind (k : TimerKind) (r : Room) : Room × List Emit :=
  match k with
  | TimerKind.resolveNight => resolveNightPhase r
  | TimerKind.startDay => startDayPhase r
  | TimerKind.startVote => startVotePhase r
  | TimerKind.resolveVote => resolveVotePhase r
  | TimerKind.startNight => startNightPhase r

/-- Fire the pending timer with the given handle: a cancelled (absent)
timer is a no-op; a live one is consumed and its callback runs. -/
def fireTimer (h : Nat) (r : Room) : Room × List Emit :=
  match r.pending.find? (fun t => t.id == h) with
  | none => (r, [])
  | some t =>
      runTimerKind t.kind { r with pending := r.pending.filter (fun t2 => t2.id != h) }

-- ===========================================================================
-- Map lemmas
-- ===========================================================================

theorem mapGet_cons (k : String) (kv : String × Player) (m : List (String × Player)) :
    mapGet k (kv :: m) = if kv.1 = k then some kv.2 else mapGet k m := by
  by_cases h : kv.1 = k <;> simp [mapGet, List.find?_cons, h]

theorem mapGet_mapSet_self (k : String) (v : Player) (m : List (String × Player)) :
    mapGet k (mapSet k v m) = some v := by
  induction m with
  | nil => simp [mapGet, mapSet]
  | cons kv rest ih =>
      by_cases h : kv.1 = k
      · simp [mapSet, h, mapGet_cons]
      · simp [mapSet, h, mapGet_cons, ih]

theorem mapGet_mapSet_ne (k k' : String) (v : Player)
    (m : List (String × Player)) (h : k' ≠ k) :
    mapGet k' (mapSet k v m) = mapGet k' m := by
  induction m with
  | nil => simp [mapGet, mapSet, Ne.symm h]
  | cons kv rest ih =>
      by_cases hk : kv.1 = k
      · simp [mapSet, hk, mapGet_cons, Ne.symm h, hk ▸ (Ne.symm h)]
      · simp [mapSet, hk, mapGet_cons, ih]

theorem mapGet_mapDelete_self (k : String) (m : List (String × Player)) :
    mapGet k (mapDelete k m) = none := by
  induction m with
  | nil => simp [mapGet, mapDelete]
  | cons kv rest ih =>
      by_cases h : kv.1 = k
      · simpa [mapDelete, h] using ih
      · simpa [mapDelete, h, mapGet_cons] using ih

theorem mapGet_mapDelete_ne (k k' : String) (m : List (String × Player))
    (h : k' ≠ k) : mapGet k' (mapDelete k m) = mapGet k' m := by
  induction m with
  | nil => simp [mapDelete]
  | cons kv rest ih =>
      by_cases hk : kv.1 = k
      · rw [show mapDelete k (kv :: rest) = mapDelete k rest by simp [mapDelete, hk]]
        rw [ih, mapGet_cons, if_neg (by rw [hk]; exact Ne.symm h)]
      · rw [show mapDelete k (kv :: rest) = kv :: mapDelete k rest by simp [mapDelete, hk]]
        rw [mapGet_cons, mapGet_cons, ih]

theorem mapSet_length_of_absent (k : String) (v : Player)
    (m : List (String × Player)) (h : mapGet k m = none) :
    (mapSet k v m).length = m.length + 1 := by
  induction m with
  | nil => simp [mapSet]
  | cons kv rest ih =>
      rw [mapGet_cons] at h
      by_cases hk : kv.1 = k
      · simp [hk] at h
      · rw [if_neg hk] at h
        simp [mapSet, hk, ih h]

theorem mapDelete_length_of_present (k : String) (m : List (String × Player))
    (hmem : (mapGet k m).isSome)
    (hnd : (m.map (fun kv => kv.1)).Nodup) :
    (mapDelete k m).length + 1 = m.length := by
  induction m with
  | nil => simp [mapGet] at hmem
  | cons kv rest ih =>
      by_cases hk : kv.1 = k
      · have hni : kv.1 ∉ rest.map (fun kv => kv.1) := by
          simpa using (List.nodup_cons.mp hnd).1
        have hout : mapDelete k rest = rest := by
          unfold mapDelete
          apply List.filter_eq_self.mpr
          intro a hab
          have hne : a.1 ≠ k := by
            intro he
            exact hni (by
              have : a.1 ∈ rest.map (fun kv => kv.1) :=
                List.mem_map_of_mem (fun kv => kv.1) hab
              rwa [he, ← hk] at this)
          simpa using hne
        have h1 : mapDelete k (kv :: rest) = mapDelete k rest := by
          simp [mapDelete, List.filter_cons, hk]
        rw [h1, hout]
        simp
      · rw [mapGet_cons, if_neg hk] at hmem
        have := ih hmem (List.nodup_cons.mp hnd).2
        have h1 : mapDelete k (kv :: rest) = kv :: mapDelete k rest := by
          simp [mapDelete, List.filter_cons, hk]
        rw [h1]
        simpa using this

-- ===========================================================================
-- Timer lemmas
-- ===========================================================================

/-- The intended timer invariant: at most one live phase timer, and the
stored handle names it. -/
def timerInv (r : Room) : Prop :=
  r.pending.length ≤ 1 ∧ ∀ t ∈ r.pending, r.timerHandle = some t.id

instance (r : Room) : Decidable (timerInv r) := by
  unfold timerInv
  infer_instance

theorem clearRoomTimer_pending_of_inv (r : Room) (h : timerInv r) :
    (clearRoomTimer r).pending = [] := by
  obtain ⟨hlen, hhandle⟩ := h
  match hp : r.pending with
  | [] =>
      unfold clearRoomTimer
      match r.timerHandle with
      | some h0 => simp [hp]
      | none => simp [hp]
  | [t] =>
      have hh := hhandle t (by simp [hp])
      unfold clearRoomTimer
      rw [hh]
      simp [hp]
  | t1 :: t2 :: rest => simp [hp] at hlen

theorem clearRoomTimer_fields (r : Room) :
    (clearRoomTimer r).phase = r.phase ∧
    (clearRoomTimer r).players = r.players ∧
    (clearRoomTimer r).nextTimerId = r.nextTimerId ∧
    (clearRoomTimer r).doctorSave = r.doctorSave ∧
    (clearRoomTimer r).nightActionsSubmitted = r.nightActionsSubmitted := by
  unfold clearRoomTimer
  match r.timerHandle with
  | some h0 => simp
  | none => simp

/-- Clear-then-arm under the invariant: exactly the fresh timer is live
and the invariant is preserved. -/
theorem clearThenArm (r : Room) (k : TimerKind) (d : Nat) (h : timerInv r) :
    (armTimer k d (clearRoomTimer r)).pending = [⟨r.nextTimerId, k, d⟩] ∧
    timerInv (armTimer k d (clearRoomTimer r)) := by
  have hnil := clearRoomTimer_pending_of_inv r h
  have hnext := (clearRoomTimer_fields r).2.2.1
  constructor
  · simp [armTimer, hnil, hnext]
  · constructor
    · simp [armTimer, hnil]
    · intro t ht
      simp [armTimer, hnil, hnext] at ht ⊢
      simp [ht]

-- ===========================================================================
-- Event-shape lemmas (scope and kind of everything the phase machine emits)
-- ===========================================================================

/-- Whether an event is a private detective result. -/
def isDetRes : Event → Bool
  | Event.detectiveResult _ _ _ => true
  | _ => false

/-- An emission is a plain room broadcast that is not a detective result. -/
def broadcastSafe (e : Emit) : Prop :=
  e.1 = Scope.toRoom ∧ isDetRes e.2 = false

theorem endGame_broadcastSafe (w : Winner) (r : Room) :
    ∀ e ∈ (endGame w r).2, broadcastSafe e := by
  intro e he
  simp [endGame] at he
  rcases he with he | he <;> simp [he, broadcastSafe, systemMsg, isDetRes]

theorem startNightPhase_broadcastSafe (r : Room) :
    ∀ e ∈ (startNightPhase r).2, broadcastSafe e := by
  intro e he
  simp [startNightPhase] at he
  rcases he with he | he <;> simp [he, broadcastSafe, systemMsg, isDetRes]

theorem startDayPhase_broadcastSafe (r : Room) :
    ∀ e ∈ (startDayPhase r).2, broadcastSafe e := by
  intro e he
  simp [startDayPhase] at he
  rcases he with he | he <;> simp [he, broadcastSafe, systemMsg, isDetRes]

theorem startVotePhase_broadcastSafe (r : Room) :
    ∀ e ∈ (startVotePhase r).2, broadcastSafe e := by
  intro e he
  simp [startVotePhase] at he
  rcases he with he | he | he <;>
    simp [he, broadcastSafe, systemMsg, voteUpdatedEmit, isDetRes]

theorem nightKillApplied_broadcastSafe (r : Room) (res : NightResult) :
    ∀ e ∈ (nightKillApplied r res).2.1, broadcastSafe e := by
  intro e he
  unfold nightKillApplied at he
  split at he
  · simp at he
  · split at he
    · simp at he
    · split at he
      · simp at he
      · simp at he
        simp [he, broadcastSafe, isDetRes]

theorem resolveNightPhase_broadcastSafe (r : Room) :
    ∀ e ∈ (resolveNightPhase r).2, broadcastSafe e := by
  intro e he
  unfold resolveNightPhase at he
  by_cases hp : r.phase ≠ Phase.night
  · simp [hp] at he
  · rw [if_neg (by simpa using hp)] at he
    rcases hw : checkWinCondition (nightKillApplied r (resolveNight r)).1 with _ | w
    all_goals simp only [hw, List.mem_append, List.mem_singleton] at he
    · rcases he with (he | he) | he
      · exact nightKillApplied_broadcastSafe r (resolveNight r) e he
      · rcases hc : (resolveNight r).cutsceneVariant with _ | v
        all_goals rw [hc] at he
        · simp at he
        · simp at he
          simp [he, broadcastSafe, isDetRes]
      · simp [he, broadcastSafe, isDetRes]
    · rcases he with ((he | he) | he) | he
      · exact nightKillApplied_broadcastSafe r (resolveNight r) e he
      · rcases hc : (resolveNight r).cutsceneVariant with _ | v
        all_goals rw [hc] at he
        · simp at he
        · simp at he
          simp [he, broadcastSafe, isDetRes]
      · simp [he, broadcastSafe, isDetRes]
      · exact endGame_broadcastSafe w _ e he

theorem lynchApplied_broadcastSafe (r : Room) (lid : Option String) :
    ∀ e ∈ (lynchApplied r lid).2, broadcastSafe e := by
  intro e he
  unfold lynchApplied at he
  split at he
  · split at he
    · simp at he
      rcases he with he | he <;> simp [he, broadcastSafe, systemMsg, isDetRes]
    · simp at he
  · simp at he
    simp [he, broadcastSafe, systemMsg, isDetRes]

theorem resolveVotePhase_broadcastSafe (r : Room) :
    ∀ e ∈ (resolveVotePhase r).2, broadcastSafe e := by
  intro e he
  unfold resolveVotePhase at he
  by_cases hp : r.phase ≠ Phase.vote
  · simp [hp] at he
  · rw [if_neg (by simpa using hp)] at he
    rcases hw : checkWinCondition (lynchApplied r (resolveDayVote r)).1 with _ | w
    all_goals simp only [hw, List.mem_append, List.mem_singleton] at he
    · rcases he with he | he
      · exact lynchApplied_broadcastSafe r (resolveDayVote r) e he
      · simp [he, broadcastSafe, roomUpdatedEmit, isDetRes]
    · rcases he with (he | he) | he
      · exact lynchApplied_broadcastSafe r (resolveDayVote r) e he
      · simp [he, broadcastSafe, roomUpdatedEmit, isDetRes]
      · exact endGame_broadcastSafe w _ e he

theorem checkNightActionsComplete_broadcastSafe (r : Room) :
    ∀ e ∈ (checkNightActionsComplete r).2, broadcastSafe e := by
  intro e he
  unfold checkNightActionsComplete at he
  split at he
  · simp at he
  · split at he
    · exact resolveNightPhase_broadcastSafe _ e he
    · simp at he

theorem runTimerKind_broadcastSafe (k : TimerKind) (r : Room) :
    ∀ e ∈ (runTimerKind k r).2, broadcastSafe e := by
  intro e he
  cases k with
  | resolveNight => exact resolveNightPhase_broadcastSafe r e he
  | startDay => exact startDayPhase_broadcastSafe r e he
  | startVote => exact startVotePhase_broadcastSafe r e he
  | resolveVote => exact resolveVotePhase_broadcastSafe r e he
  | startNight => exact startNightPhase_broadcastSafe r e he

theorem fireTimer_broadcastSafe (h : Nat) (r : Room) :
    ∀ e ∈ (fireTimer h r).2, broadcastSafe e := by
  intro e he
  unfold fireTimer at he
  split at he
  · simp at he
  · exact runTimerKind_broadcastSafe _ _ e he

/-- An emission that is not the private detective result (whatever its
scope). -/
def noDetRes (e : Emit) : Prop := isDetRes e.2 = false

theorem broadcastSafe_noDetRes (e : Emit) (h : broadcastSafe e) : noDetRes e :=
  h.2

theorem rejectWith_noDetRes (r : Room) (s m : String) :
    ∀ e ∈ (rejectWith r s m).2, noDetRes e := by
  intro e he
  simp [rejectWith] at he
  simp [he, noDetRes, isDetRes]

theorem joinRoom_noDetRes (sender name avatar sessionId : String) (r : Room) :
    ∀ e ∈ (joinRoom sender name avatar sessionId r).2, noDetRes e := by
  intro e he
  unfold joinRoom at he
  split at he
  · exact rejectWith_noDetRes _ _ _ e he
  · split at he
    · exact rejectWith_noDetRes _ _ _ e he
    · split at he
      · exact rejectWith_noDetRes _ _ _ e he
      · split at he
        · exact rejectWith_noDetRes _ _ _ e he
        · simp at he
          rcases he with he | he | he <;>
            simp [he, noDetRes, isDetRes, roomUpdatedEmit, systemMsg]

theorem startGame_noDetRes (sender : String) (shuffled : List String) (r : Room) :
    ∀ e ∈ (startGame sender shuffled r).2, noDetRes e := by
  intro e he
  unfold startGame at he
  split at he
  · exact rejectWith_noDetRes _ _ _ e he
  · split at he
    · exact rejectWith_noDetRes _ _ _ e he
    · split at he
      · exact rejectWith_noDetRes _ _ _ e he
      · simp only [List.mem_map] at he
        obtain ⟨kv, _, hkv⟩ := he
        simp [← hkv, noDetRes, isDetRes]

theorem dayVoteAccept_noDetRes (sender target : String) (r : Room) :
    ∀ e ∈ (dayVoteAccept sender target r).2, noDetRes e := by
  intro e he
  unfold dayVoteAccept at he
  dsimp only at he
  split at he
  · simp only [List.mem_append, List.mem_singleton] at he
    rcases he with he | he
    · simp [he, noDetRes, isDetRes, voteUpdatedEmit]
    · exact broadcastSafe_noDetRes e (resolveVotePhase_broadcastSafe _ e he)
  · simp at he
    simp [he, noDetRes, isDetRes, voteUpdatedEmit]

theorem dayVote_noDetRes (sender target : String) (r : Room) :
    ∀ e ∈ (dayVote sender target r).2, noDetRes e := by
  intro e he
  unfold dayVote at he
  split at he
  · exact rejectWith_noDetRes _ _ _ e he
  · split at he
    · exact rejectWith_noDetRes _ _ _ e he
    · split at he
      · exact rejectWith_noDetRes _ _ _ e he
      · split at he
        · exact rejectWith_noDetRes _ _ _ e he
        · split at he
          · exact rejectWith_noDetRes _ _ _ e he
          · split at he
            · exact rejectWith_noDetRes _ _ _ e he
            · exact dayVoteAccept_noDetRes _ _ _ e he

theorem chatDeliver_noDetRes (sender text : String) (channel : Channel)
    (p2 : Player) (r1 : Room) :
    ∀ e ∈ (chatDeliver sender text channel p2 r1).2, noDetRes e := by
  intro e he
  unfold chatDeliver at he
  dsimp only at he
  split at he
  · exact rejectWith_noDetRes _ _ _ e he
  · split at he
    · simp at he
    · split at he
      · simp only [List.mem_map] at he
        obtain ⟨kv, _, hkv⟩ := he
        simp [← hkv, noDetRes, isDetRes]
      · simp at he
        simp [he, noDetRes, isDetRes]

theorem chatMessage_noDetRes (sender text : String) (channel : Channel)
    (now : Nat) (r : Room) :
    ∀ e ∈ (chatMessage sender text channel now r).2, noDetRes e := by
  intro e he
  unfold chatMessage at he
  split at he
  · simp at he
  · split at he
    · exact rejectWith_noDetRes _ _ _ e he
    · split at he
      · exact rejectWith_noDetRes _ _ _ e he
      · split at he
        · exact rejectWith_noDetRes _ _ _ e he
        · exact chatDeliver_noDetRes _ _ _ _ _ e he

theorem reconnectPlayer_noDetRes (newId sessionId : String) (now : Nat) (r : Room) :
    ∀ e ∈ (reconnectPlayer newId sessionId now r).2, noDetRes e := by
  have htrans : ∀ (nid sid : String) (r0 : Room) (p : Player),
      ∀ e ∈ (reconnectPlayer.reconnectTransfer nid sid r0 p).2, noDetRes e := by
    intro nid sid r0 p e he
    unfold reconnectPlayer.reconnectTransfer at he
    simp at he
    rcases he with he | he <;> simp [he, noDetRes, isDetRes, roomUpdatedEmit]
  intro e he
  unfold reconnectPlayer at he
  split at he
  · exact rejectWith_noDetRes _ _ _ e he
  · dsimp only at he
    split at he
    · split at he
      · exact rejectWith_noDetRes _ _ _ e he
      · exact htrans _ _ _ _ e he
    · exact htrans _ _ _ _ e he

theorem removePlayerBlock_noDetRes (sender : String) (player : Player)
    (departText : String) (r : Room) :
    ∀ e ∈ (removePlayerBlock sender player departText r).2, noDetRes e := by
  intro e he
  unfold removePlayerBlock at he
  dsimp only at he
  split at he
  all_goals split at he
  all_goals simp at he
  all_goals
    first
      | (rcases he with he | he | he <;>
          simp [he, noDetRes, isDetRes, systemMsg, roomUpdatedEmit])
      | (rcases he with he | he <;>
          simp [he, noDetRes, isDetRes, systemMsg, roomUpdatedEmit])
      | simp [he, noDetRes, isDetRes, systemMsg, roomUpdatedEmit]

theorem handleLeave_noDetRes (sender : String) (r : Room) :
    ∀ e ∈ (handleLeave sender r).2, noDetRes e := by
  intro e he
  unfold handleLeave at he
  split at he
  · simp at he
  · exact removePlayerBlock_noDetRes _ _ _ _ e he

theorem handleDrop_noDetRes (sender : String) (now : Nat) (r : Room) :
    ∀ e ∈ (handleDrop sender now r).2, noDetRes e := by
  intro e he
  unfold handleDrop at he
  split at he
  · simp at he
  · dsimp only at he
    split at he
    · simp only [List.mem_cons, List.mem_singleton] at he
      rcases he with he | he | he
      · simp [he, noDetRes, isDetRes, systemMsg]
      · simp [he, noDetRes, isDetRes, roomUpdatedEmit]
      · simp at he
    · simp at he

theorem forceEliminate_noDetRes (sender : String) (player : Player) (r : Room) :
    ∀ e ∈ (forceEliminate sender player r).2, noDetRes e := by
  intro e he
  unfold forceEliminate at he
  dsimp only at he
  split at he
  · simp only [List.mem_append, List.mem_cons, List.mem_singleton] at he
    rcases he with (he | he) | he
    · simp [he, noDetRes, isDetRes, systemMsg]
    · rcases he with he | he
      · simp [he, noDetRes, isDetRes, roomUpdatedEmit]
      · simp at he
    · exact broadcastSafe_noDetRes e (endGame_broadcastSafe _ _ e he)
  · simp only [List.mem_cons, List.mem_singleton] at he
    rcases he with he | he | he
    · simp [he, noDetRes, isDetRes, systemMsg]
    · simp [he, noDetRes, isDetRes, roomUpdatedEmit]
    · simp at he

theorem graceExpire_noDetRes (sender : String) (r : Room) :
    ∀ e ∈ (graceExpire sender r).2, noDetRes e := by
  intro e he
  unfold graceExpire at he
  split at he
  · simp at he
  · split at he
    · simp at he
    · split at he
      · exact removePlayerBlock_noDetRes _ _ _ _ e he
      · exact forceEliminate_noDetRes _ _ _ e he

theorem finishNightAction_detRes (sender : String) (r1 : Room) (evs : List Emit) :
    ∀ e ∈ (finishNightAction sender r1 evs).2, e ∈ evs ∨ noDetRes e := by
  intro e he
  unfold finishNightAction at he
  simp only [List.mem_append] at he
  rcases he with he | he
  · exact Or.inl he
  · exact Or.inr (broadcastSafe_noDetRes e (checkNightActionsComplete_broadcastSafe _ e he))

/-- Case analysis on the `night_action` handler: every run is either a
rejection or one of the three accepting branches finishing through
`finishNightAction`, whose direct events are empty or exactly the private
detective result sent to the issuing connection. -/
theorem nightAction_cases (sender : String) (act : NAction) (target : String)
    (r : Room) :
    (∃ m, nightAction sender act target r = rejectWith r sender m) ∨
    (∃ r1 evs, nightAction sender act target r = finishNightAction sender r1 evs ∧
       (evs = [] ∨ ∃ tid tn im,
          evs = [(Scope.toSocket sender, Event.detectiveResult tid tn im)])) := by
  unfold nightAction
  repeat' split
  all_goals first
    | exact Or.inl ⟨_, rfl⟩
    | exact Or.inr ⟨_, _, rfl, Or.inl rfl⟩
    | exact Or.inr ⟨_, _, rfl, Or.inr ⟨_, _, _, rfl⟩⟩

theorem nightAction_detRes_unicast (sender : String) (act : NAction)
    (target : String) (r : Room) :
    ∀ e ∈ (nightAction sender act target r).2,
      isDetRes e.2 = true → e.1 = Scope.toSocket sender := by
  intro e he hdet
  rcases nightAction_cases sender act target r with ⟨m, hm⟩ | ⟨r1, evs, hm, hevs⟩
  · rw [hm] at he
    simp [rejectWith] at he
    simp [he, isDetRes] at hdet
  · rw [hm] at he
    rcases finishNightAction_detRes _ _ _ e he with hin | hno
    · rcases hevs with hnil | ⟨tid, tn, im, hone⟩
      · simp [hnil] at hin
      · rw [hone] at hin
        simp at hin
        simp [hin]
    · simp [noDetRes, hdet] at hno

-- ===========================================================================
-- Concrete rooms used by witnesses
-- ===========================================================================

/-- Shorthand for building a player record in concrete test rooms. -/
def mkPlayer (id name : String) (role : Option Role) (alive connected : Bool)
    (disconnectedAt : Option Nat) : Player :=
  { id := id, sessionId := id ++ "-sess", name := name, avatar := "a"
    role := role, alive := alive, connected := connected
    disconnectedAt := disconnectedAt, chatCount := 0, chatWindowStart := 0 }

/-- A five-player mid-match room in the night phase (mafia `m1`, doctor
`doc`, detective `det`, citizens `c1`, `c2`), with the night timer armed. -/
def nightRoom : Room :=
  { code := "ABC123", phase := Phase.night, round := 1
    players :=
      [("m1", mkPlayer "m1" "Mallory" (some Role.mafia) true true none),
       ("doc", mkPlayer "doc" "Dana" (some Role.doctor) true true none),
       ("det", mkPlayer "det" "Devon" (some Role.detective) true true none),
       ("c1", mkPlayer "c1" "Casey" (some Role.citizen) true true none),
       ("c2", mkPlayer "c2" "Corey" (some Role.citizen) true true none)]
    hostId := "m1", started := true
    mafiaVotes := [], doctorSave := none, detectiveTarget := none
    nightActionsSubmitted := [], votes := []
    pending := [⟨0, TimerKind.resolveNight, NIGHT_DURATION_MS⟩]
    timerHandle := some 0, nextTimerId := 1 }

-- ===========================================================================
-- C8
-- ===========================================================================

/-- C8: the result of a detective investigation is delivered only to the
investigating player's own connection: across every inbound command, any
emitted `detective_result` event arises from a `night_action` command and
is unicast to its sender, and no timer-driven transition ever emits one
(so in particular it is never part of a room broadcast). -/
theorem detective_result_private :
    (∀ (c : Cmd) (r : Room), ∀ e ∈ (serverStep c r).2,
        isDetRes e.2 = true →
          ∃ s a t, c = Cmd.night s a t ∧ e.1 = Scope.toSocket s) ∧
    (∀ (h : Nat) (r : Room), ∀ e ∈ (fireTimer h r).2, isDetRes e.2 = false) := by
  constructor
  · intro c r e he hdet
    cases c with
    | join s n a sid =>
        simp only [serverStep] at he
        have := joinRoom_noDetRes s n a sid r e he
        simp [noDetRes, hdet] at this
    | start s sh =>
        simp only [serverStep] at he
        have := startGame_noDetRes s sh r e he
        simp [noDetRes, hdet] at this
    | night s a t =>
        simp only [serverStep] at he
        exact ⟨s, a, t, rfl, nightAction_detRes_unicast s a t r e he hdet⟩
    | vote s t =>
        simp only [serverStep] at he
        have := dayVote_noDetRes s t r e he
        simp [noDetRes, hdet] at this
    | chat s txt ch now =>
        simp only [serverStep] at he
        have := chatMessage_noDetRes s txt ch now r e he
        simp [noDetRes, hdet] at this
    | reconnect s sid now =>
        simp only [serverStep] at he
        have := reconnectPlayer_noDetRes s sid now r e he
        simp [noDetRes, hdet] at this
    | leave s =>
        simp only [serverStep] at he
        have := handleLeave_noDetRes s r e he
        simp [noDetRes, hdet] at this
    | drop s now =>
        simp only [serverStep] at he
        have := handleDrop_noDetRes s now r e he
        simp [noDetRes, hdet] at this
  · intro h r e he
    exact (fireTimer_broadcastSafe h r e he).2

/-- Witness for C8: in the concrete night room, the detective `det`
investigating `m1` produces a `detective_result` event, and the theorem
pins its delivery to `det`'s own connection. -/
theorem detective_result_private_witness :
    ∃ s a t, Cmd.night "det" NAction.investigate "m1" = Cmd.night s a t ∧
      (Scope.toSocket "det",
        Event.detectiveResult "m1" "Mallory" true).1 = Scope.toSocket s :=
  detective_result_private.1 (Cmd.night "det" NAction.investigate "m1") nightRoom
    (Scope.toSocket "det", Event.detectiveResult "m1" "Mallory" true)
    (by decide) (by decide)

-- ===========================================================================
-- Field-preservation lemmas for the night-resolution pipeline
-- ===========================================================================

theorem clearRoomTimer_preserves (r : Room) :
    (clearRoomTimer r).phase = r.phase ∧
    (clearRoomTimer r).nightActionsSubmitted = r.nightActionsSubmitted ∧
    (clearRoomTimer r).doctorSave = r.doctorSave ∧
    (clearRoomTimer r).detectiveTarget = r.detectiveTarget ∧
    (clearRoomTimer r).round = r.round ∧
    (clearRoomTimer r).players = r.players := by
  unfold clearRoomTimer
  match r.timerHandle with
  | some h => simp
  | none => simp

theorem nightKillApplied_preserves (r : Room) (res : NightResult) :
    (nightKillApplied r res).1.phase = r.phase ∧
    (nightKillApplied r res).1.nightActionsSubmitted = r.nightActionsSubmitted ∧
    (nightKillApplied r res).1.doctorSave = r.doctorSave ∧
    (nightKillApplied r res).1.detectiveTarget = r.detectiveTarget ∧
    (nightKillApplied r res).1.round = r.round ∧
    (nightKillApplied r res).1.pending = r.pending ∧
    (nightKillApplied r res).1.timerHandle = r.timerHandle ∧
    (nightKillApplied r res).1.nextTimerId = r.nextTimerId := by
  unfold nightKillApplied
  split
  · simp
  · split
    · simp
    · split
      · simp
      · simp

theorem endGame_preserves (w : Winner) (r : Room) :
    (endGame w r).1.phase = Phase.ended ∧
    (endGame w r).1.nightActionsSubmitted = r.nightActionsSubmitted ∧
    (endGame w r).1.doctorSave = r.doctorSave ∧
    (endGame w r).1.detectiveTarget = r.detectiveTarget ∧
    (endGame w r).1.round = r.round ∧
    (endGame w r).1.players = r.players := by
  unfold endGame clearRoomTimer
  dsimp only
  split <;> simp

theorem resolveNightPhase_preserves (r : Room) :
    (resolveNightPhase r).1.nightActionsSubmitted = r.nightActionsSubmitted ∧
    (resolveNightPhase r).1.doctorSave = r.doctorSave ∧
    (resolveNightPhase r).1.detectiveTarget = r.detectiveTarget ∧
    (resolveNightPhase r).1.round = r.round := by
  unfold resolveNightPhase
  split
  · simp
  · dsimp only
    split
    · -- win: the result is endGame applied to the post-kill room
      have hk := nightKillApplied_preserves r (resolveNight r)
      have he := endGame_preserves (by assumption) (nightKillApplied r (resolveNight r)).1
      exact ⟨by rw [he.2.1, hk.2.1], by rw [he.2.2.1, hk.2.2.1],
             by rw [he.2.2.2.1, hk.2.2.2.1], by rw [he.2.2.2.2.1, hk.2.2.2.2.1]⟩
    · have hk := nightKillApplied_preserves r (resolveNight r)
      have hc := clearRoomTimer_preserves (nightKillApplied r (resolveNight r)).1
      simp only [armTimer]
      exact ⟨by rw [hc.2.1, hk.2.1], by rw [hc.2.2.1, hk.2.2.1],
             by rw [hc.2.2.2.1, hk.2.2.2.1], by rw [hc.2.2.2.2.1, hk.2.2.2.2.1]⟩

theorem checkNightActionsComplete_preserves (r : Room) :
    (checkNightActionsComplete r).1.nightActionsSubmitted = r.nightActionsSubmitted ∧
    (checkNightActionsComplete r).1.doctorSave = r.doctorSave ∧
    (checkNightActionsComplete r).1.detectiveTarget = r.detectiveTarget ∧
    (checkNightActionsComplete r).1.round = r.round := by
  unfold checkNightActionsComplete
  split
  · simp
  · split
    · have hp := resolveNightPhase_preserves (clearRoomTimer r)
      have hc := clearRoomTimer_preserves r
      exact ⟨by rw [hp.1, hc.2.1], by rw [hp.2.1, hc.2.2.1],
             by rw [hp.2.2.1, hc.2.2.2.1], by rw [hp.2.2.2, hc.2.2.2.2.1]⟩
    · simp

theorem finishNightAction_fields (sender : String) (r1 : Room) (evs : List Emit) :
    (finishNightAction sender r1 evs).1.nightActionsSubmitted =
      r1.nightActionsSubmitted ++ [sender] ∧
    (finishNightAction sender r1 evs).1.doctorSave = r1.doctorSave ∧
    (finishNightAction sender r1 evs).1.detectiveTarget = r1.detectiveTarget := by
  unfold finishNightAction
  dsimp only
  have hp := checkNightActionsComplete_preserves
    { r1 with nightActionsSubmitted := r1.nightActionsSubmitted ++ [sender] }
  exact ⟨by rw [hp.1], by rw [hp.2.1], by rw [hp.2.2.1]⟩

-- ===========================================================================
-- C4
-- ===========================================================================

/-- The role that must be held to issue each night action. -/
def roleFor : NAction → Role
  | NAction.kill => Role.mafia
  | NAction.save => Role.doctor
  | NAction.investigate => Role.detective

/-- Spec-side legality condition for a night action, following the claim's
words: the phase is night, the sender is a living player holding the
matching role, the sender has not already submitted this round, the target
is alive, and a kill does not target its sender. -/
def nightActionLegal (r : Room) (sender : String) (act : NAction)
    (target : String) : Bool :=
  (r.phase == Phase.night) &&
  (match mapGet sender r.players with
   | some p => p.alive && (p.role == some (roleFor act))
   | none => false) &&
  !(decide (sender ∈ r.nightActionsSubmitted)) &&
  (match mapGet target r.players with
   | some t => t.alive
   | none => false) &&
  (!(act == NAction.kill) || !(target == sender))

theorem nightAction_reject_of_not_legal (r : Room) (sender : String)
    (act : NAction) (target : String)
    (h : nightActionLegal r sender act target = false) :
    (nightAction sender act target r).1 = r ∧
    ∃ m, (nightAction sender act target r).2 =
      [(Scope.toSocket sender, Event.errorMsg m)] := by
  unfold nightAction
  repeat' split
  all_goals try exact ⟨rfl, _, rfl⟩
  all_goals exfalso
  all_goals revert h
  all_goals simp only [nightActionLegal, roleFor]
  all_goals simp_all

theorem finishNightAction_no_error (sender : String) (r1 : Room)
    (evs : List Emit)
    (hevs : ∀ m, (Scope.toSocket sender, Event.errorMsg m) ∉ evs) :
    ∀ m, (Scope.toSocket sender, Event.errorMsg m) ∉
      (finishNightAction sender r1 evs).2 := by
  intro m hmem
  unfold finishNightAction at hmem
  dsimp only at hmem
  rw [List.mem_append] at hmem
  rcases hmem with hmem | hmem
  · exact hevs m hmem
  · have := (checkNightActionsComplete_broadcastSafe _ _ hmem).1
    simp at this

theorem nightAction_accept_of_legal (r : Room) (sender : String)
    (act : NAction) (target : String)
    (h : nightActionLegal r sender act target = true) :
    sender ∈ (nightAction sender act target r).1.nightActionsSubmitted ∧
    ∀ m, (Scope.toSocket sender, Event.errorMsg m) ∉
      (nightAction sender act target r).2 := by
  unfold nightAction
  repeat' split
  all_goals solve
    | (exfalso; revert h; simp only [nightActionLegal, roleFor]; simp_all)
    | (constructor
       · rw [(finishNightAction_fields _ _ _).1]
         simp
       · exact finishNightAction_no_error _ _ _ (fun m hm => by simp at hm))

/-- C4: a night-action command is rejected with a specific error and no
room-state mutation unless the phase is night, the sender is a living
player holding the matching role, the sender has not yet submitted this
round, the target is alive, and (for kill) the target is not the sender;
when all conditions hold the action is accepted (the sender is recorded as
having submitted and no error is returned to them). -/
theorem night_action_validation
    (r1 : Room) (s1 : String) (a1 : NAction) (t1 : String)
    (hIll : nightActionLegal r1 s1 a1 t1 = false)
    (r2 : Room) (s2 : String) (a2 : NAction) (t2 : String)
    (hLeg : nightActionLegal r2 s2 a2 t2 = true) :
    ((nightAction s1 a1 t1 r1).1 = r1 ∧
     ∃ m, (nightAction s1 a1 t1 r1).2 =
       [(Scope.toSocket s1, Event.errorMsg m)]) ∧
    (s2 ∈ (nightAction s2 a2 t2 r2).1.nightActionsSubmitted ∧
     ∀ m, (Scope.toSocket s2, Event.errorMsg m) ∉ (nightAction s2 a2 t2 r2).2) :=
  ⟨nightAction_reject_of_not_legal r1 s1 a1 t1 hIll,
   nightAction_accept_of_legal r2 s2 a2 t2 hLeg⟩

/-- Witness for C4: in the concrete night room, the citizen `c1`
attempting a kill is illegal and rejected without mutation, while the
mafia member `m1` killing `c1` is legal and recorded. -/
theorem night_action_validation_witness :
    nightActionLegal nightRoom "c1" NAction.kill "c2" = false ∧
    nightActionLegal nightRoom "m1" NAction.kill "c1" = true ∧
    (((nightAction "c1" NAction.kill "c2" nightRoom).1 = nightRoom ∧
      ∃ m, (nightAction "c1" NAction.kill "c2" nightRoom).2 =
        [(Scope.toSocket "c1", Event.errorMsg m)]) ∧
     ("m1" ∈ (nightAction "m1" NAction.kill "c1" nightRoom).1.nightActionsSubmitted ∧
      ∀ m, (Scope.toSocket "m1", Event.errorMsg m) ∉
        (nightAction "m1" NAction.kill "c1" nightRoom).2)) :=
  ⟨by decide, by decide,
   night_action_validation nightRoom "c1" NAction.kill "c2" (by decide)
     nightRoom "m1" NAction.kill "c1" (by decide)⟩

-- ===========================================================================
-- C10
-- ===========================================================================

theorem finishNightAction_mem_evs (sender : String) (r1 : Room)
    (evs : List Emit) (e : Emit) (h : e ∈ evs) :
    e ∈ (finishNightAction sender r1 evs).2 := by
  unfold finishNightAction
  dsimp only
  exact List.mem_append.mpr (Or.inl h)

theorem nightAction_save_effect (r : Room) (sender target : String)
    (h : nightActionLegal r sender NAction.save target = true) :
    (nightAction sender NAction.save target r).1.doctorSave = some target := by
  unfold nightAction
  repeat' split
  all_goals solve
    | (exfalso; revert h; simp only [nightActionLegal, roleFor]; simp_all)
    | (rw [(finishNightAction_fields _ _ _).2.1])

theorem nightAction_investigate_effect (r : Room) (sender target : String)
    (pt : Player)
    (h : nightActionLegal r sender NAction.investigate target = true)
    (htarget : mapGet target r.players = some pt) :
    (Scope.toSocket sender,
      Event.detectiveResult target pt.name (pt.role == some Role.mafia)) ∈
      (nightAction sender NAction.investigate target r).2 := by
  unfold nightAction
  rw [htarget]
  repeat' split
  all_goals solve
    | (exfalso; revert h; simp only [nightActionLegal, roleFor]; simp_all)
    | (exact finishNightAction_mem_evs _ _ _ _ (by simp_all))

/-- C10: self-targeting is allowed for the save and investigate actions:
a legal doctor save whose target is the doctor records the doctor's own id
as the save target, and a legal detective self-investigation delivers the
private result about the detective's own (non-mafia) role to the
detective's connection. -/
theorem self_target_save_investigate
    (r1 : Room) (s1 : String)
    (h1 : nightActionLegal r1 s1 NAction.save s1 = true)
    (r2 : Room) (s2 : String) (p2 : Player)
    (h2 : nightActionLegal r2 s2 NAction.investigate s2 = true)
    (hp2 : mapGet s2 r2.players = some p2)
    (hrole : p2.role = some Role.detective) :
    (nightAction s1 NAction.save s1 r1).1.doctorSave = some s1 ∧
    (Scope.toSocket s2, Event.detectiveResult s2 p2.name false) ∈
      (nightAction s2 NAction.investigate s2 r2).2 := by
  constructor
  · exact nightAction_save_effect r1 s1 s1 h1
  · have := nightAction_investigate_effect r2 s2 s2 p2 h2 hp2
    rwa [show (p2.role == some Role.mafia) = false by simp [hrole]] at this

/-- Witness for C10: in the concrete night room the doctor saves
themselves and the detective investigates themselves; both actions are
accepted and behave as stated. -/
theorem self_target_save_investigate_witness :
    nightActionLegal nightRoom "doc" NAction.save "doc" = true ∧
    nightActionLegal nightRoom "det" NAction.investigate "det" = true ∧
    ((nightAction "doc" NAction.save "doc" nightRoom).1.doctorSave = some "doc" ∧
     (Scope.toSocket "det",
        Event.detectiveResult "det" "Devon" false) ∈
       (nightAction "det" NAction.investigate "det" nightRoom).2) :=
  ⟨by decide, by decide,
   self_target_save_investigate nightRoom "doc" (by decide)
     nightRoom "det" (mkPlayer "det" "Devon" (some Role.detective) true true none)
     (by decide) (by decide) (by decide)⟩

-- ===========================================================================
-- C1
-- ===========================================================================

theorem alive_partition (r : Room) :
    (getAliveMafia r).length + (getAliveNonMafia r).length =
      (getAlivePlayers r).length := by
  unfold getAliveMafia getAliveNonMafia
  have h2 : List.filter (fun p : Player => p.role != some Role.mafia)
      (getAlivePlayers r) =
      List.filter (fun p : Player => !(p.role == some Role.mafia))
        (getAlivePlayers r) := by
    apply List.filter_congr
    intro p _
    simp [bne]
  rw [h2]
  exact (List.length_eq_length_filter_add
    (fun p : Player => p.role == some Role.mafia)).symm

theorem checkWin_town_iff (r : Room) :
    checkWinCondition r = some Winner.town ↔ (getAliveMafia r).length = 0 := by
  unfold checkWinCondition
  dsimp only
  split
  · simp [*]
  · split <;> simp_all

theorem checkWin_mafia_iff (r : Room) (hA : getAlivePlayers r ≠ []) :
    checkWinCondition r = some Winner.mafia ↔
      (getAliveNonMafia r).length ≤ (getAliveMafia r).length := by
  have hpart := alive_partition r
  have hpos : 0 < (getAlivePlayers r).length := List.length_pos.mpr hA
  unfold checkWinCondition
  dsimp only
  split
  · have hnm : 0 < (getAliveNonMafia r).length := by omega
    constructor
    · intro hcontra
      simp at hcontra
    · intro hle
      omega
  · split <;> simp_all

theorem checkWin_none_iff (r : Room) :
    checkWinCondition r = none ↔
      ((getAliveMafia r).length ≠ 0 ∧
       (getAliveMafia r).length < (getAliveNonMafia r).length) := by
  unfold checkWinCondition
  dsimp only
  split
  · simp_all
  · split <;> simp_all

theorem lynchApplied_preserves (r : Room) (lid : Option String) :
    (lynchApplied r lid).1.phase = r.phase ∧
    (lynchApplied r lid).1.round = r.round := by
  unfold lynchApplied
  split
  · split <;> simp
  · simp

theorem resolveNightPhase_ends_iff (r : Room) (hN : r.phase = Phase.night) :
    ((resolveNightPhase r).1.phase = Phase.ended ↔
      checkWinCondition (nightKillApplied r (resolveNight r)).1 ≠ none) := by
  unfold resolveNightPhase
  rw [if_neg (by simp [hN])]
  dsimp only
  split
  · rename_i w hw
    rw [(endGame_preserves w _).1]
    simp [hw]
  · rename_i hw
    have h1 : (armTimer TimerKind.startDay
        (if (resolveNight r).cutsceneVariant.isSome then 12000 else 2000)
        (clearRoomTimer (nightKillApplied r (resolveNight r)).1)).phase =
        (clearRoomTimer (nightKillApplied r (resolveNight r)).1).phase := rfl
    rw [h1, (clearRoomTimer_preserves _).1, (nightKillApplied_preserves _ _).1, hN]
    simp [hw]

theorem resolveVotePhase_ends_iff (r : Room) (hV : r.phase = Phase.vote) :
    ((resolveVotePhase r).1.phase = Phase.ended ↔
      checkWinCondition (lynchApplied r (resolveDayVote r)).1 ≠ none) := by
  unfold resolveVotePhase
  rw [if_neg (by simp [hV])]
  dsimp only
  split
  · rename_i w hw
    rw [(endGame_preserves w _).1]
    simp [hw]
  · rename_i hw
    have h1 : (armTimer TimerKind.startNight 3000
        (clearRoomTimer (lynchApplied r (resolveDayVote r)).1)).phase =
        (clearRoomTimer (lynchApplied r (resolveDayVote r)).1).phase := rfl
    rw [h1, (clearRoomTimer_preserves _).1, (lynchApplied_preserves _ _).1, hV]
    simp [hw]

/-- C1: `checkWinCondition` returns town-win iff zero mafia are alive,
mafia-win iff alive mafia meet or exceed alive non-mafia (stated for rooms
with at least one living player; with everyone dead the two spec sentences
would contradict each other, and such a room is unreachable), and no
winner otherwise; and both night resolution and vote resolution end the
match exactly when the win check on the post-elimination room is decided. -/
theorem win_condition_spec
    (rA : Room) (hA : getAlivePlayers rA ≠ [])
    (rN : Room) (hN : rN.phase = Phase.night)
    (rV : Room) (hV : rV.phase = Phase.vote) :
    (checkWinCondition rA = some Winner.town ↔ (getAliveMafia rA).length = 0) ∧
    (checkWinCondition rA = some Winner.mafia ↔
      (getAliveNonMafia rA).length ≤ (getAliveMafia rA).length) ∧
    (checkWinCondition rA = none ↔
      ((getAliveMafia rA).length ≠ 0 ∧
       (getAliveMafia rA).length < (getAliveNonMafia rA).length)) ∧
    ((resolveNightPhase rN).1.phase = Phase.ended ↔
      checkWinCondition (nightKillApplied rN (resolveNight rN)).1 ≠ none) ∧
    ((resolveVotePhase rV).1.phase = Phase.ended ↔
      checkWinCondition (lynchApplied rV (resolveDayVote rV)).1 ≠ none) :=
  ⟨checkWin_town_iff rA, checkWin_mafia_iff rA hA, checkWin_none_iff rA,
   resolveNightPhase_ends_iff rN hN, resolveVotePhase_ends_iff rV hV⟩

/-- A concrete room in the vote phase (same five players as `nightRoom`). -/
def voteRoom : Room :=
  { nightRoom with
    phase := Phase.vote
    pending := [⟨3, TimerKind.resolveVote, VOTE_DURATION_MS⟩]
    timerHandle := some 3
    nextTimerId := 4 }

/-- Witness for C1: the three win-condition equivalences and the two
resolution equivalences evaluated on the concrete night and vote rooms. -/
theorem win_condition_spec_witness :
    getAlivePlayers nightRoom ≠ [] ∧ nightRoom.phase = Phase.night ∧
    voteRoom.phase = Phase.vote ∧
    ((checkWinCondition nightRoom = some Winner.town ↔
        (getAliveMafia nightRoom).length = 0) ∧
     (checkWinCondition nightRoom = some Winner.mafia ↔
        (getAliveNonMafia nightRoom).length ≤ (getAliveMafia nightRoom).length) ∧
     (checkWinCondition nightRoom = none ↔
        ((getAliveMafia nightRoom).length ≠ 0 ∧
         (getAliveMafia nightRoom).length < (getAliveNonMafia nightRoom).length)) ∧
     ((resolveNightPhase nightRoom).1.phase = Phase.ended ↔
        checkWinCondition (nightKillApplied nightRoom (resolveNight nightRoom)).1 ≠ none) ∧
     ((resolveVotePhase voteRoom).1.phase = Phase.ended ↔
        checkWinCondition (lynchApplied voteRoom (resolveDayVote voteRoom)).1 ≠ none)) :=
  ⟨by decide, by decide, by decide,
   win_condition_spec nightRoom (by decide) nightRoom (by decide) voteRoom (by decide)⟩

-- ===========================================================================
-- C3
-- ===========================================================================

theorem nightKillApplied_players_get (r : Room) (res : NightResult) (id : String) :
    mapGet id (nightKillApplied r res).1.players =
      (if res.killedPlayerId = some id ∧ res.saved = false ∧
          (mapGet id r.players).isSome
       then (mapGet id r.players).map (fun p => { p with alive := false })
       else mapGet id r.players) := by
  unfold nightKillApplied
  match hk : res.killedPlayerId with
  | none => simp
  | some t =>
      dsimp only
      by_cases hs : res.saved
      · simp [hs]
      · rw [if_neg hs]
        match hg : mapGet t r.players with
        | none =>
            dsimp only
            by_cases hit : t = id
            · subst hit
              simp [hg]
            · simp [hit, hs]
        | some p =>
            dsimp only
            by_cases hit : t = id
            · subst hit
              rw [mapGet_mapSet_self]
              rw [if_pos ⟨rfl, by simpa using hs, by simp [hg]⟩]
              simp [hg]
            · rw [mapGet_mapSet_ne t id _ _ (fun h => hit h.symm)]
              rw [if_neg (by
                rintro ⟨h1, -, -⟩
                exact hit (by injection h1))]

theorem resolveNightPhase_players (r : Room) (hN : r.phase = Phase.night) :
    (resolveNightPhase r).1.players =
      (nightKillApplied r (resolveNight r)).1.players := by
  unfold resolveNightPhase
  rw [if_neg (by simp [hN])]
  dsimp only
  split
  · rename_i w hw
    exact (endGame_preserves w _).2.2.2.2.2
  · have h1 : (armTimer TimerKind.startDay
        (if (resolveNight r).cutsceneVariant.isSome then 12000 else 2000)
        (clearRoomTimer (nightKillApplied r (resolveNight r)).1)).players =
        (clearRoomTimer (nightKillApplied r (resolveNight r)).1).players := rfl
    rw [h1, (clearRoomTimer_preserves _).2.2.2.2.2]

theorem resolveNight_saved_iff (r : Room) (t : String)
    (hk : (resolveNight r).killedPlayerId = some t) :
    (resolveNight r).saved = true ↔ r.doctorSave = some t := by
  unfold resolveNight at hk ⊢
  match hc : chooseKillTarget r.mafiaVotes with
  | none => rw [hc] at hk; simp at hk
  | some t' =>
      rw [hc] at hk
      simp at hk
      subst hk
      simp

theorem endGame_no_elim (w : Winner) (r : Room) :
    ∀ e ∈ (endGame w r).2, ∀ pid pn c, e.2 ≠ Event.playerEliminated pid pn c := by
  intro e he pid pn c
  simp [endGame] at he
  rcases he with he | he <;> simp [he, systemMsg]

theorem resolveNightPhase_no_elim_of_saved (r : Room)
    (hs : (resolveNight r).saved = true) :
    ∀ e ∈ (resolveNightPhase r).2,
      ∀ pid pn c, e.2 ≠ Event.playerEliminated pid pn c := by
  intro e he pid pn c
  unfold resolveNightPhase at he
  by_cases hp : r.phase ≠ Phase.night
  · simp [hp] at he
  · rw [if_neg (by simpa using hp)] at he
    have hkill : (nightKillApplied r (resolveNight r)).2.1 = [] := by
      unfold nightKillApplied
      split
      · rfl
      · rw [if_pos hs]
    rcases hw : checkWinCondition (nightKillApplied r (resolveNight r)).1 with _ | w
    all_goals simp only [hw, hkill, List.nil_append, List.mem_append,
      List.mem_singleton] at he
    · rcases he with he | he
      · rcases hc : (resolveNight r).cutsceneVariant with _ | v
        all_goals rw [hc] at he
        · simp at he
        · simp at he
          simp [he]
      · simp [he]
    · rcases he with (he | he) | he
      · rcases hc : (resolveNight r).cutsceneVariant with _ | v
        all_goals rw [hc] at he
        · simp at he
        · simp at he
          simp [he]
      · simp [he]
      · exact endGame_no_elim w _ e he pid pn c

theorem resolveNightPhase_arms_day_delay (r : Room) (hN : r.phase = Phase.night)
    (hw : checkWinCondition (nightKillApplied r (resolveNight r)).1 = none) :
    ∃ t ∈ (resolveNightPhase r).1.pending, t.kind = TimerKind.startDay ∧
      t.delay = (if (resolveNight r).cutsceneVariant.isSome then 12000 else 2000) := by
  unfold resolveNightPhase
  rw [if_neg (by simp [hN])]
  dsimp only
  rw [hw]
  refine ⟨⟨(clearRoomTimer (nightKillApplied r (resolveNight r)).1).nextTimerId,
    TimerKind.startDay,
    if (resolveNight r).cutsceneVariant.isSome then 12000 else 2000⟩, ?_, rfl, rfl⟩
  simp [armTimer]

/-- C3: night resolution marks the chosen kill target dead exactly when a
kill target was chosen, the doctor's save differs from it, and the target
is still in the room; when the save equals the kill target the result has
`saved = true` and no elimination event is emitted; the match ends exactly
when the win check on the post-kill room is decided, and otherwise a
pre-day timer is armed whose delay is larger (12 s) when a cutscene was
selected than when none was (2 s). -/
theorem night_resolution_spec (r : Room) (hN : r.phase = Phase.night) :
    (∀ t p, (resolveNight r).killedPlayerId = some t →
       (resolveNight r).saved = false → mapGet t r.players = some p →
       mapGet t (resolveNightPhase r).1.players =
         some { p with alive := false }) ∧
    (∀ id, ¬((resolveNight r).killedPlayerId = some id ∧
        (resolveNight r).saved = false) →
       mapGet id (resolveNightPhase r).1.players = mapGet id r.players) ∧
    (∀ t, (resolveNight r).killedPlayerId = some t →
       ((resolveNight r).saved = true ↔ r.doctorSave = some t)) ∧
    ((resolveNight r).saved = true →
       ∀ e ∈ (resolveNightPhase r).2,
         ∀ pid pn c, e.2 ≠ Event.playerEliminated pid pn c) ∧
    ((resolveNightPhase r).1.phase = Phase.ended ↔
       checkWinCondition (nightKillApplied r (resolveNight r)).1 ≠ none) ∧
    (checkWinCondition (nightKillApplied r (resolveNight r)).1 = none →
       ∃ t ∈ (resolveNightPhase r).1.pending, t.kind = TimerKind.startDay ∧
         t.delay =
           (if (resolveNight r).cutsceneVariant.isSome then 12000 else 2000)) ∧
    (2000 : Nat) < 12000 := by
  refine ⟨?_, ?_, ?_, ?_, resolveNightPhase_ends_iff r hN,
    resolveNightPhase_arms_day_delay r hN, by omega⟩
  · intro t p hk hs hget
    rw [resolveNightPhase_players r hN, nightKillApplied_players_get,
      if_pos ⟨hk, hs, by simp [hget]⟩, hget]
    rfl
  · intro id hno
    rw [resolveNightPhase_players r hN, nightKillApplied_players_get,
      if_neg (by
        rintro ⟨h1, h2, -⟩
        exact hno ⟨h1, h2⟩)]
  · intro t hk
    exact resolveNight_saved_iff r t hk
  · intro hs
    exact resolveNightPhase_no_elim_of_saved r hs

/-- The concrete night room after the mafia voted to kill `c1` and the
detective investigated; the doctor has not acted. -/
def nightRoomVoted : Room :=
  { nightRoom with
    mafiaVotes := [⟨"m1", "c1"⟩]
    detectiveTarget := some "m1"
    nightActionsSubmitted := ["m1", "det"] }

/-- Witness for C3: the theorem applied to the concrete voted night room
(kill target `c1`, no save), together with concrete evaluations: `c1` is
marked dead and the 2 s pre-day timer is armed (no cutscene pathology:
a cutscene was selected, so the delay is 12 s). -/
theorem night_resolution_spec_witness :
    nightRoomVoted.phase = Phase.night ∧
    (resolveNight nightRoomVoted).killedPlayerId = some "c1" ∧
    (resolveNight nightRoomVoted).saved = false ∧
    mapGet "c1" (resolveNightPhase nightRoomVoted).1.players =
      some { mkPlayer "c1" "Casey" (some Role.citizen) true true none with
        alive := false } :=
  ⟨rfl, by decide, by decide,
   (night_resolution_spec nightRoomVoted rfl).1 "c1"
     (mkPlayer "c1" "Casey" (some Role.citizen) true true none)
     (by decide) (by decide) (by decide)⟩

-- ===========================================================================
-- C7
-- ===========================================================================

theorem timerInv_of_eq (r r' : Room) (hp : r'.pending = r.pending)
    (hh : r'.timerHandle = r.timerHandle) (h : timerInv r) : timerInv r' := by
  unfold timerInv at *
  rw [hp, hh]
  exact h

theorem lynchApplied_timer (r : Room) (lid : Option String) :
    (lynchApplied r lid).1.pending = r.pending ∧
    (lynchApplied r lid).1.timerHandle = r.timerHandle ∧
    (lynchApplied r lid).1.nextTimerId = r.nextTimerId := by
  unfold lynchApplied
  split
  · split <;> simp
  · simp

theorem endGame_pending_nil (w : Winner) (r : Room) (h : timerInv r) :
    (endGame w r).1.pending = [] := by
  unfold endGame
  dsimp only
  exact clearRoomTimer_pending_of_inv _ (timerInv_of_eq r _ rfl rfl h)

theorem resolveNightPhase_timer (r : Room) (hInv : timerInv r)
    (hN : r.phase = Phase.night) :
    ((resolveNightPhase r).1.phase = Phase.ended ∧
       (resolveNightPhase r).1.pending = []) ∨
    ((resolveNightPhase r).1.phase = r.phase ∧
       (resolveNightPhase r).1.pending.length = 1 ∧
       timerInv (resolveNightPhase r).1) := by
  have hrk : timerInv (nightKillApplied r (resolveNight r)).1 :=
    timerInv_of_eq r _ (nightKillApplied_preserves r _).2.2.2.2.2.1
      (nightKillApplied_preserves r _).2.2.2.2.2.2.1 hInv
  unfold resolveNightPhase
  rw [if_neg (by simp [hN])]
  dsimp only
  split
  · rename_i w hw
    exact Or.inl ⟨(endGame_preserves w _).1, endGame_pending_nil w _ hrk⟩
  · right
    have ha := clearThenArm (nightKillApplied r (resolveNight r)).1
      TimerKind.startDay
      (if (resolveNight r).cutsceneVariant.isSome then 12000 else 2000) hrk
    refine ⟨?_, ?_, ha.2⟩
    · have h1 : (armTimer TimerKind.startDay
          (if (resolveNight r).cutsceneVariant.isSome then 12000 else 2000)
          (clearRoomTimer (nightKillApplied r (resolveNight r)).1)).phase =
          (clearRoomTimer (nightKillApplied r (resolveNight r)).1).phase := rfl
      rw [h1, (clearRoomTimer_preserves _).1, (nightKillApplied_preserves _ _).1]
    · rw [ha.1]
      rfl

theorem resolveVotePhase_timer (r : Room) (hInv : timerInv r)
    (hV : r.phase = Phase.vote) :
    ((resolveVotePhase r).1.phase = Phase.ended ∧
       (resolveVotePhase r).1.pending = []) ∨
    ((resolveVotePhase r).1.phase = r.phase ∧
       (resolveVotePhase r).1.pending.length = 1 ∧
       timerInv (resolveVotePhase r).1) := by
  have hrk : timerInv (lynchApplied r (resolveDayVote r)).1 :=
    timerInv_of_eq r _ (lynchApplied_timer r _).1 (lynchApplied_timer r _).2.1 hInv
  unfold resolveVotePhase
  rw [if_neg (by simp [hV])]
  dsimp only
  split
  · rename_i w hw
    exact Or.inl ⟨(endGame_preserves w _).1, endGame_pending_nil w _ hrk⟩
  · right
    have ha := clearThenArm (lynchApplied r (resolveDayVote r)).1
      TimerKind.startNight 3000 hrk
    refine ⟨?_, ?_, ha.2⟩
    · have h1 : (armTimer TimerKind.startNight 3000
          (clearRoomTimer (lynchApplied r (resolveDayVote r)).1)).phase =
          (clearRoomTimer (lynchApplied r (resolveDayVote r)).1).phase := rfl
      rw [h1, (clearRoomTimer_preserves _).1, (lynchApplied_preserves _ _).1]
    · rw [ha.1]
      rfl

/-- C7: under the at-most-one-pending-phase-timer invariant, every phase
transition clears the previously pending timer and arms exactly one new
timer (the fresh one is the sole live timer afterwards, and the invariant
is preserved), `endGame` cancels the pending timer and arms none, and the
two resolution transitions either reach `ended` with no pending timer or
stay in their phase with exactly one pending timer. -/
theorem phase_timer_discipline
    (r : Room) (hInv : timerInv r) (w : Winner)
    (rN : Room) (hInvN : timerInv rN) (hN : rN.phase = Phase.night)
    (rV : Room) (hInvV : timerInv rV) (hV : rV.phase = Phase.vote) :
    ((startNightPhase r).1.pending =
        [⟨r.nextTimerId, TimerKind.resolveNight, NIGHT_DURATION_MS⟩] ∧
      timerInv (startNightPhase r).1) ∧
    ((startDayPhase r).1.pending =
        [⟨r.nextTimerId, TimerKind.startVote, DAY_DISCUSS_MS⟩] ∧
      timerInv (startDayPhase r).1) ∧
    ((startVotePhase r).1.pending =
        [⟨r.nextTimerId, TimerKind.resolveVote, VOTE_DURATION_MS⟩] ∧
      timerInv (startVotePhase r).1) ∧
    ((endGame w r).1.phase = Phase.ended ∧ (endGame w r).1.pending = []) ∧
    (((resolveNightPhase rN).1.phase = Phase.ended ∧
        (resolveNightPhase rN).1.pending = []) ∨
     ((resolveNightPhase rN).1.phase = rN.phase ∧
        (resolveNightPhase rN).1.pending.length = 1 ∧
        timerInv (resolveNightPhase rN).1)) ∧
    (((resolveVotePhase rV).1.phase = Phase.ended ∧
        (resolveVotePhase rV).1.pending = []) ∨
     ((resolveVotePhase rV).1.phase = rV.phase ∧
        (resolveVotePhase rV).1.pending.length = 1 ∧
        timerInv (resolveVotePhase rV).1)) := by
  refine ⟨?_, ?_, ?_, ⟨(endGame_preserves w r).1, endGame_pending_nil w r hInv⟩,
    resolveNightPhase_timer rN hInvN hN, resolveVotePhase_timer rV hInvV hV⟩
  · have h := clearThenArm
      { r with phase := Phase.night, round := r.round + 1, mafiaVotes := []
               doctorSave := none, detectiveTarget := none
               nightActionsSubmitted := [] }
      TimerKind.resolveNight NIGHT_DURATION_MS (timerInv_of_eq r _ rfl rfl hInv)
    exact ⟨h.1, h.2⟩
  · have h := clearThenArm { r with phase := Phase.day, votes := [] }
      TimerKind.startVote DAY_DISCUSS_MS (timerInv_of_eq r _ rfl rfl hInv)
    exact ⟨h.1, h.2⟩
  · have h := clearThenArm { r with phase := Phase.vote }
      TimerKind.resolveVote VOTE_DURATION_MS (timerInv_of_eq r _ rfl rfl hInv)
    exact ⟨h.1, h.2⟩

/-- Witness for C7: the timer discipline instantiated on the concrete
night and vote rooms (each holding exactly one pending timer). -/
theorem phase_timer_discipline_witness :
    timerInv nightRoom ∧ timerInv voteRoom ∧
    (((startNightPhase nightRoom).1.pending =
        [⟨nightRoom.nextTimerId, TimerKind.resolveNight, NIGHT_DURATION_MS⟩] ∧
      timerInv (startNightPhase nightRoom).1) ∧
     ((startDayPhase nightRoom).1.pending =
        [⟨nightRoom.nextTimerId, TimerKind.startVote, DAY_DISCUSS_MS⟩] ∧
      timerInv (startDayPhase nightRoom).1) ∧
     ((startVotePhase nightRoom).1.pending =
        [⟨nightRoom.nextTimerId, TimerKind.resolveVote, VOTE_DURATION_MS⟩] ∧
      timerInv (startVotePhase nightRoom).1) ∧
     ((endGame Winner.town nightRoom).1.phase = Phase.ended ∧
      (endGame Winner.town nightRoom).1.pending = []) ∧
     (((resolveNightPhase nightRoom).1.phase = Phase.ended ∧
         (resolveNightPhase nightRoom).1.pending = []) ∨
      ((resolveNightPhase nightRoom).1.phase = nightRoom.phase ∧
         (resolveNightPhase nightRoom).1.pending.length = 1 ∧
         timerInv (resolveNightPhase nightRoom).1)) ∧
     (((resolveVotePhase voteRoom).1.phase = Phase.ended ∧
         (resolveVotePhase voteRoom).1.pending = []) ∨
      ((resolveVotePhase voteRoom).1.phase = voteRoom.phase ∧
         (resolveVotePhase voteRoom).1.pending.length = 1 ∧
         timerInv (resolveVotePhase voteRoom).1))) :=
  ⟨by decide, by decide,
   phase_timer_discipline nightRoom (by decide) Winner.town
     nightRoom (by decide) (by decide) voteRoom (by decide) (by decide)⟩

-- ===========================================================================
-- C5
-- ===========================================================================

theorem mapGet_of_mem_nodup (m : List (String × Player)) (kv : String × Player)
    (hmem : kv ∈ m) (hnd : (m.map (fun kv => kv.1)).Nodup) :
    mapGet kv.1 m = some kv.2 := by
  induction m with
  | nil => simp at hmem
  | cons a rest ih =>
      rcases List.mem_cons.mp hmem with h | h
      · subst h
        simp [mapGet_cons]
      · have hne : a.1 ≠ kv.1 := by
          intro he
          have h1 : kv.1 ∈ rest.map (fun kv => kv.1) :=
            List.mem_map_of_mem (fun kv => kv.1) h
          have h2 := (List.nodup_cons.mp hnd).1
          exact h2 (by simpa [he] using h1)
        rw [mapGet_cons, if_neg hne]
        exact ih h (List.nodup_cons.mp hnd).2

theorem reconnect_accept (r : Room) (newId sessionId : String) (now : Nat)
    (kv : String × Player)
    (hfind : r.players.find? (fun kv => kv.2.sessionId == sessionId) = some kv)
    (hwin : ∀ t, kv.2.disconnectedAt = some t → now - t ≤ 30000)
    (hkeys : ∀ kv' ∈ r.players, kv'.1 = kv'.2.id)
    (hnd : (r.players.map (fun kv => kv.1)).Nodup)
    (hnew : mapGet newId r.players = none ∨ newId = kv.2.id) :
    (reconnectPlayer newId sessionId now r).1.players.length =
      r.players.length ∧
    mapGet newId (reconnectPlayer newId sessionId now r).1.players =
      some { kv.2 with id := newId, connected := true, disconnectedAt := none } ∧
    (newId ≠ kv.2.id →
      mapGet kv.2.id (reconnectPlayer newId sessionId now r).1.players = none) ∧
    (reconnectPlayer newId sessionId now r).1.hostId =
      (if r.hostId = kv.2.id then newId else r.hostId) ∧
    (reconnectPlayer newId sessionId now r).1.phase = r.phase ∧
    (reconnectPlayer newId sessionId now r).2 =
      [(Scope.toSocket newId, Event.reconnected r.code newId kv.2.role r.phase
          (toPublicPlayers (reconnectPlayer newId sessionId now r).1)),
       roomUpdatedEmit (reconnectPlayer newId sessionId now r).1] := by
  have hout : reconnectPlayer newId sessionId now r =
      reconnectPlayer.reconnectTransfer newId sessionId r kv.2 := by
    unfold reconnectPlayer
    rw [hfind]
    dsimp only
    match hda : kv.2.disconnectedAt with
    | some t =>
        dsimp only
        rw [if_neg (by have := hwin t hda; omega)]
    | none => rfl
  have hold : (mapGet kv.2.id r.players).isSome := by
    have h1 := mapGet_of_mem_nodup r.players kv (List.mem_of_find?_eq_some hfind) hnd
    rw [hkeys kv (List.mem_of_find?_eq_some hfind)] at h1
    simp [h1]
  have habsent : mapGet newId (mapDelete kv.2.id r.players) = none := by
    rcases hnew with h | h
    · by_cases he : newId = kv.2.id
      · subst he
        exact mapGet_mapDelete_self _ _
      · rw [mapGet_mapDelete_ne _ _ _ he]
        exact h
    · subst h
      exact mapGet_mapDelete_self _ _
  rw [hout]
  unfold reconnectPlayer.reconnectTransfer
  dsimp only
  refine ⟨?_, ?_, ?_, rfl, rfl, rfl⟩
  · rw [mapSet_length_of_absent _ _ _ habsent]
    rw [← mapDelete_length_of_present kv.2.id r.players hold hnd]
  · rw [mapGet_mapSet_self]
  · intro hne
    rw [mapGet_mapSet_ne newId kv.2.id _ _ (fun h => hne h.symm)]
    exact mapGet_mapDelete_self _ _

theorem reconnect_reject_expired (r : Room) (newId sessionId : String)
    (now t : Nat) (kv : String × Player)
    (hfind : r.players.find? (fun kv => kv.2.sessionId == sessionId) = some kv)
    (hda : kv.2.disconnectedAt = some t) (hexp : now - t > 30000) :
    reconnectPlayer newId sessionId now r =
      (r, [(Scope.toSocket newId, Event.errorMsg "Reconnect window expired.")]) := by
  unfold reconnectPlayer
  rw [hfind]
  dsimp only
  rw [hda]
  dsimp only
  rw [if_pos hexp]
  rfl

/-- C5: a reconnect carrying a session identifier that matches a player
and arriving within the 30 s grace window replaces that player's
connection identifier with the new socket id, sets `connected = true`,
clears the disconnect timestamp, re-promotes them to host if they held it,
and answers with their own role, the current phase and the public roster,
without changing the number of player entries; a reconnect arriving after
the window has elapsed is rejected with the window-expired error and no
mutation. -/
theorem reconnect_spec
    (r : Room) (newId sessionId : String) (now : Nat) (kv : String × Player)
    (hfind : r.players.find? (fun kv => kv.2.sessionId == sessionId) = some kv)
    (hwin : ∀ t, kv.2.disconnectedAt = some t → now - t ≤ 30000)
    (hkeys : ∀ kv' ∈ r.players, kv'.1 = kv'.2.id)
    (hnd : (r.players.map (fun kv => kv.1)).Nodup)
    (hnew : mapGet newId r.players = none ∨ newId = kv.2.id)
    (r2 : Room) (newId2 sessionId2 : String) (now2 t2 : Nat)
    (kv2 : String × Player)
    (hfind2 : r2.players.find? (fun kv => kv.2.sessionId == sessionId2) = some kv2)
    (hda2 : kv2.2.disconnectedAt = some t2) (hexp2 : now2 - t2 > 30000) :
    ((reconnectPlayer newId sessionId now r).1.players.length =
        r.players.length ∧
     mapGet newId (reconnectPlayer newId sessionId now r).1.players =
       some { kv.2 with id := newId, connected := true, disconnectedAt := none } ∧
     (newId ≠ kv.2.id →
       mapGet kv.2.id (reconnectPlayer newId sessionId now r).1.players = none) ∧
     (reconnectPlayer newId sessionId now r).1.hostId =
       (if r.hostId = kv.2.id then newId else r.hostId) ∧
     (reconnectPlayer newId sessionId now r).1.phase = r.phase ∧
     (reconnectPlayer newId sessionId now r).2 =
       [(Scope.toSocket newId, Event.reconnected r.code newId kv.2.role r.phase
           (toPublicPlayers (reconnectPlayer newId sessionId now r).1)),
        roomUpdatedEmit (reconnectPlayer newId sessionId now r).1]) ∧
    reconnectPlayer newId2 sessionId2 now2 r2 =
      (r2, [(Scope.toSocket newId2, Event.errorMsg "Reconnect window expired.")]) :=
  ⟨reconnect_accept r newId sessionId now kv hfind hwin hkeys hnd hnew,
   reconnect_reject_expired r2 newId2 sessionId2 now2 t2 kv2 hfind2 hda2 hexp2⟩

/-- The concrete night room with the citizen `c2` disconnected since time
1000 (the host `m1` is also used to exercise host re-promotion in other
scenarios). -/
def dropRoom : Room :=
  { nightRoom with
    players :=
      [("m1", mkPlayer "m1" "Mallory" (some Role.mafia) true true none),
       ("doc", mkPlayer "doc" "Dana" (some Role.doctor) true true none),
       ("det", mkPlayer "det" "Devon" (some Role.detective) true true none),
       ("c1", mkPlayer "c1" "Casey" (some Role.citizen) true true none),
       ("c2", mkPlayer "c2" "Corey" (some Role.citizen) true false (some 1000))] }

/-- Witness for C5: `c2` reconnects as socket `c2new` at time 20000
(inside the window) and the accept conclusions hold; a second reconnect
attempt at time 40000 is past the window and rejected. -/
theorem reconnect_spec_witness :
    (reconnectPlayer "c2new" "c2-sess" 20000 dropRoom).1.players.length =
        dropRoom.players.length ∧
    reconnectPlayer "c2x" "c2-sess" 40000 dropRoom =
      (dropRoom, [(Scope.toSocket "c2x", Event.errorMsg "Reconnect window expired.")]) := by
  have h := reconnect_spec dropRoom "c2new" "c2-sess" 20000
    ("c2", mkPlayer "c2" "Corey" (some Role.citizen) true false (some 1000))
    (by decide)
    (by intro t ht; injection ht with h1; omega)
    (by decide) (by decide) (Or.inl (by decide))
    dropRoom "c2x" "c2-sess" 40000 1000
    ("c2", mkPlayer "c2" "Corey" (some Role.citizen) true false (some 1000))
    (by decide) (by decide) (by decide)
  exact ⟨h.1.1, h.2⟩

-- ===========================================================================
-- C6
-- ===========================================================================

/-- Counterexample for C6 as stated: in the concrete mid-match room with
`c2` disconnected past the grace window, the expiry callback marks `c2`
permanently dead, yet the emitted events contain no `player_eliminated`
event at all — in particular none with cause `forced_disconnect` (the
code broadcasts only a system chat message and a roster update). -/
theorem grace_expiry_no_elim_counterexample :
    dropRoom.phase ≠ Phase.lobby ∧
    (mapGet "c2" dropRoom.players).map Player.connected = some false ∧
    ((graceExpire "c2" dropRoom).1.map
        (fun r' => (mapGet "c2" r'.players).map Player.alive)) =
      some (some false) ∧
    ((graceExpire "c2" dropRoom).2.all (fun e =>
        match e.2 with
        | Event.playerEliminated _ _ _ => false
        | _ => true)) = true := by
  refine ⟨by decide, by decide, by decide, by decide⟩

theorem forceEliminate_no_elim (sender : String) (player : Player) (r : Room) :
    ∀ e ∈ (forceEliminate sender player r).2,
      ∀ pid pn c, e.2 ≠ Event.playerEliminated pid pn c := by
  intro e he pid pn c
  unfold forceEliminate at he
  dsimp only at he
  split at he
  · simp only [List.mem_append, List.mem_cons, List.mem_singleton] at he
    rcases he with (he | he) | he
    · simp [he, systemMsg]
    · rcases he with he | he
      · simp [he, roomUpdatedEmit]
      · simp at he
    · exact endGame_no_elim _ _ e he pid pn c
  · simp only [List.mem_cons, List.mem_singleton] at he
    rcases he with he | he | he
    · simp [he, systemMsg]
    · simp [he, roomUpdatedEmit]
    · simp at he

/-- C6 as amended: when the grace window elapses for a still-disconnected
player, in the lobby the player is removed with the voluntary-leave
consequences (entry deleted, host reassigned to the first remaining map
key when the leaver was host, room deleted exactly when it empties);
mid-match the player is marked permanently dead, no `player_eliminated`
event is emitted (a system chat message and roster update are broadcast
instead), and the win condition is re-checked on the updated room, ending
the match exactly when it is now decided. -/
theorem grace_expiry_spec
    (rL : Room) (sL : String) (pL : Player) (hL : rL.phase = Phase.lobby)
    (hpL : mapGet sL rL.players = some pL) (hdL : pL.connected = false)
    (rM : Room) (sM : String) (pM : Player) (hM : rM.phase ≠ Phase.lobby)
    (hM2 : rM.phase ≠ Phase.ended)
    (hpM : mapGet sM rM.players = some pM) (hdM : pM.connected = false) :
    ((∀ r', (graceExpire sL rL).1 = some r' →
        r'.players = mapDelete sL rL.players ∧
        mapGet sL r'.players = none ∧
        r'.hostId = (if rL.hostId = sL ∧ mapDelete sL rL.players ≠ [] then
          (((mapDelete sL rL.players).head?).map (fun kv => kv.1)).getD rL.hostId
          else rL.hostId)) ∧
     ((graceExpire sL rL).1 = none ↔ mapDelete sL rL.players = [])) ∧
    ((∀ r', (graceExpire sM rM).1 = some r' →
        mapGet sM r'.players = some { pM with alive := false } ∧
        (r'.phase = Phase.ended ↔
          checkWinCondition
            { rM with players :=
                mapSet sM { pM with alive := false } rM.players } ≠ none)) ∧
     (∀ e ∈ (graceExpire sM rM).2,
        ∀ pid pn c, e.2 ≠ Event.playerEliminated pid pn c) ∧
     systemMsg (pM.name ++ " failed to reconnect.") ∈ (graceExpire sM rM).2) := by
  have hgl : graceExpire sL rL = removePlayerBlock sL pL " left the lobby." rL := by
    unfold graceExpire
    rw [hpL]
    dsimp only
    rw [if_neg (by simp [hdL]), if_pos hL]
  have hgm : graceExpire sM rM = forceEliminate sM pM rM := by
    unfold graceExpire
    rw [hpM]
    dsimp only
    rw [if_neg (by simp [hdM]), if_neg hM]
  constructor
  · rw [hgl]
    unfold removePlayerBlock
    dsimp only
    constructor
    · intro r' heq
      split at heq
      · simp at heq
      · rename_i hne
        injection heq with heq2
        subst heq2
        refine ⟨rfl, mapGet_mapDelete_self _ _, ?_⟩
        split <;> rfl
    · split
      · rename_i hem
        simp_all [List.isEmpty_iff]
      · rename_i hem
        simp_all [List.isEmpty_iff]
  · rw [hgm]
    refine ⟨?_, forceEliminate_no_elim sM pM rM, ?_⟩
    · intro r' heq
      unfold forceEliminate at heq
      dsimp only at heq
      split at heq
      · rename_i w hw
        injection heq with heq2
        subst heq2
        constructor
        · rw [(endGame_preserves w _).2.2.2.2.2]
          exact mapGet_mapSet_self _ _ _
        · rw [(endGame_preserves w _).1]
          simp [hw]
      · rename_i hw
        injection heq with heq2
        subst heq2
        constructor
        · exact mapGet_mapSet_self _ _ _
        · simp [hw, hM2]
    · unfold forceEliminate
      dsimp only
      split
      · simp
      · simp

/-- A concrete lobby room with the guest `g1` disconnected. -/
def lobbyRoom : Room :=
  { code := "LOBBY1", phase := Phase.lobby, round := 0
    players :=
      [("h1", mkPlayer "h1" "Hana" none true true none),
       ("g1", mkPlayer "g1" "Gil" none true false (some 500))]
    hostId := "h1", started := false
    mafiaVotes := [], doctorSave := none, detectiveTarget := none
    nightActionsSubmitted := [], votes := []
    pending := [], timerHandle := none, nextTimerId := 0 }

/-- Witness for the amended C6: the lobby expiry removes `g1` without
deleting the room, and the mid-match expiry marks `c2` dead without any
`player_eliminated` event while broadcasting the system message. -/
theorem grace_expiry_spec_witness :
    lobbyRoom.phase = Phase.lobby ∧ dropRoom.phase ≠ Phase.lobby ∧
    (∀ r', (graceExpire "g1" lobbyRoom).1 = some r' →
      mapGet "g1" r'.players = none) ∧
    systemMsg ("Corey" ++ " failed to reconnect.") ∈ (graceExpire "c2" dropRoom).2 := by
  have h := grace_expiry_spec lobbyRoom "g1"
    (mkPlayer "g1" "Gil" none true false (some 500)) (by decide) (by decide)
    (by decide) dropRoom "c2"
    (mkPlayer "c2" "Corey" (some Role.citizen) true false (some 1000))
    (by decide) (by decide) (by decide) (by decide)
  exact ⟨rfl, by decide, fun r' hr' => ((h.1.1 r' hr').2.1), h.2.2.2⟩

-- ===========================================================================
-- C2
-- ===========================================================================

/-- The room state right after the night timer expired and resolved round
1 of `nightRoomVoted` (mafia had voted to kill `c1`, the detective had
acted, the doctor had not): `c1` is dead, yet the phase is still `night`
during the pre-day cutscene delay. -/
def racedRoom : Room := (fireTimer 0 nightRoomVoted).1

set_option maxRecDepth 8000 in
/-- C2 is violated by the code: after a timer-expiry resolution of round
1 (first elimination of `c1`), the room is still in the night phase, so
the doctor's late save submission is accepted, re-triggers
`checkNightActionsComplete`, and resolves the same round a second time —
emitting `player_eliminated` for the already-dead `c1` again in the same
round. -/
theorem night_double_resolution_bug :
    nightRoomVoted.round = 1 ∧
    (Scope.toRoom, Event.playerEliminated "c1" "Casey" Cause.night_kill) ∈
      (fireTimer 0 nightRoomVoted).2 ∧
    racedRoom.phase = Phase.night ∧
    racedRoom.round = 1 ∧
    (mapGet "c1" racedRoom.players).map Player.alive = some false ∧
    (Scope.toRoom, Event.playerEliminated "c1" "Casey" Cause.night_kill) ∈
      (serverStep (Cmd.night "doc" NAction.save "c2") racedRoom).2 ∧
    ((serverStep (Cmd.night "doc" NAction.save "c2") racedRoom).1.map
        Room.round) = some 1 := by
  refine ⟨rfl, by decide, by decide, by decide, by decide, by decide, by decide⟩

-- ===========================================================================
-- C9
-- ===========================================================================

theorem nightAction_phase_guard (s : String) (a : NAction) (t : String)
    (r : Room) (h : r.phase ≠ Phase.night) :
    nightAction s a t r = rejectWith r s "Not night phase." := by
  unfold nightAction
  rw [if_pos h]

theorem dayVote_phase_guard (s t : String) (r : Room)
    (h : r.phase ≠ Phase.vote) :
    dayVote s t r = rejectWith r s "Not voting phase." := by
  unfold dayVote
  rw [if_pos h]

theorem joinRoom_phase (sender name avatar sessionId : String) (r : Room) :
    (joinRoom sender name avatar sessionId r).1.phase = r.phase := by
  unfold joinRoom
  repeat' split
  all_goals rfl

theorem startGame_phase (sender : String) (shuffled : List String) (r : Room) :
    (startGame sender shuffled r).1.phase = r.phase := by
  unfold startGame
  repeat' split
  all_goals rfl

theorem chatDeliver_phase (sender text : String) (channel : Channel)
    (p2 : Player) (r1 : Room) :
    (chatDeliver sender text channel p2 r1).1.phase = r1.phase := by
  unfold chatDeliver
  split
  · rfl
  · dsimp only
    split
    · rfl
    · split <;> rfl

theorem chatMessage_phase (sender text : String) (channel : Channel)
    (now : Nat) (r : Room) :
    (chatMessage sender text channel now r).1.phase = r.phase := by
  unfold chatMessage
  split
  · rfl
  · split
    · rfl
    · split
      · rfl
      · split
        · rfl
        · exact chatDeliver_phase _ _ _ _ _

theorem reconnectPlayer_phase (newId sessionId : String) (now : Nat)
    (r : Room) : (reconnectPlayer newId sessionId now r).1.phase = r.phase := by
  unfold reconnectPlayer reconnectPlayer.reconnectTransfer
  split
  · rfl
  · dsimp only
    split
    · split <;> rfl
    · rfl

theorem handleDrop_phase (sender : String) (now : Nat) (r : Room) :
    (handleDrop sender now r).1.phase = r.phase := by
  unfold handleDrop
  split
  · rfl
  · dsimp only
    split <;> rfl

theorem handleLeave_phase (sender : String) (r : Room) (r' : Room)
    (h : (handleLeave sender r).1 = some r') : r'.phase = r.phase := by
  unfold handleLeave removePlayerBlock at h
  dsimp only at h
  split at h
  · injection h with h2
    subst h2
    rfl
  · split at h
    · simp at h
    · injection h with h2
      subst h2
      rfl

/-- C9 fails on the code: `server.ts` registers no skip-discussion
handler (the frontend's "SKIP TO VOTE" button has no server counterpart),
and no inbound command whatsoever can move a day-phase room to the vote
phase — the only path from `day` to `vote` is the expiry of the
discussion timer. -/
theorem no_skip_discussion_command (c : Cmd) (r : Room)
    (hd : r.phase = Phase.day) :
    ((serverStep c r).1.map Room.phase = some Phase.day) ∨
    (serverStep c r).1 = none := by
  cases c with
  | join s n a sid =>
      left
      simp only [serverStep, Option.map]
      rw [joinRoom_phase, hd]
  | start s sh =>
      left
      simp only [serverStep, Option.map]
      rw [startGame_phase, hd]
  | night s a t =>
      left
      simp only [serverStep, Option.map]
      rw [nightAction_phase_guard s a t r (by simp [hd])]
      simp [rejectWith, hd]
  | vote s t =>
      left
      simp only [serverStep, Option.map]
      rw [dayVote_phase_guard s t r (by simp [hd])]
      simp [rejectWith, hd]
  | chat s txt ch now =>
      left
      simp only [serverStep, Option.map]
      rw [chatMessage_phase, hd]
  | reconnect s sid now =>
      left
      simp only [serverStep, Option.map]
      rw [reconnectPlayer_phase, hd]
  | leave s =>
      rcases h : (handleLeave s r).1 with _ | r'
      · right
        simpa [serverStep] using h
      · left
        have := handleLeave_phase s r r' h
        simp only [serverStep]
        rw [h]
        simp [this, hd]
  | drop s now =>
      left
      simp only [serverStep, Option.map]
      rw [handleDrop_phase, hd]

/-- A concrete room in the day phase. -/
def dayRoom : Room :=
  { nightRoom with
    phase := Phase.day
    pending := [⟨2, TimerKind.startVote, DAY_DISCUSS_MS⟩]
    timerHandle := some 2
    nextTimerId := 3 }

/-- Witness for C9's theorem: a host-issued command (here a vote attempt
by the host during the day phase) leaves the concrete day room in the day
phase. -/
theorem no_skip_discussion_command_witness :
    ((serverStep (Cmd.vote "m1" "c1") dayRoom).1.map Room.phase =
        some Phase.day) ∨
    (serverStep (Cmd.vote "m1" "c1") dayRoom).1 = none :=
  no_skip_discussion_command (Cmd.vote "m1" "c1") dayRoom (by decide)
